import Mathlib

/-!
# pickbray: the scrape-claim-persist loop of `run.js`

A shallow embedding of `src/run.js`.  The remote portal, the Telegram transport
and the sources of randomness and time are oracles: each function receives the
outcomes of the requests it makes, in the order it makes them.  Every function
records the calls it issues in a trace of `Event`s, so that statements about
"how many logins" or "which branch was taken" are statements about that trace.
-/

namespace Pickbray

/-! ## The ledger: table `pick_numbers` -/

/-- One row of table `pick_numbers`, as created by `checkAndCreateTable`:
`id INT AUTO_INCREMENT PRIMARY KEY, uuid CHAR(36) NOT NULL, nomor VARCHAR(20) NOT NULL,
created_at DATETIME NOT NULL, updated_at DATETIME`.  The only key is `id`. -/
structure Row where
  id : Nat
  uuid : String
  nomor : String
  created_at : String
  updated_at : Option String
deriving DecidableEq, Repr

/-- The table: its rows in insertion order and the next AUTO_INCREMENT value. -/
structure Table where
  rows : List Row
  nextId : Nat
deriving DecidableEq, Repr

/-- The error a query can raise in this model. -/
inductive SqlError where
  | dataTooLong
deriving DecidableEq, Repr

/-- The two values `saveNumbersToDatabase` draws from its host for every new number:
`uuidv4()` and `new Date().toISOString().slice(0, 19).replace('T', ' ')`;
the argument is the position of the number in `newNumbers`. -/
structure Host where
  uuidv4 : Nat → String
  now : Nat → String

/-- The object returned by `saveNumbersToDatabase`. -/
structure SaveResult where
  successCount : Nat
  duplicateCount : Nat
deriving DecidableEq, Repr

/-- The table `CREATE TABLE` creates: no row, AUTO_INCREMENT at 1. -/
def emptyTable : Table :=
  { rows := [], nextId := 1 }

/-- Function `checkAndCreateTable()`: `CREATE TABLE IF NOT EXISTS pick_numbers (...)`
keeps a table that exists (`some t`) and creates the empty one otherwise. -/
def checkAndCreateTable (existing : Option Table) : Table :=
  match existing with
  | some t => t
  | none => emptyTable

/-- The claimed values stored in the table, one per row. -/
def Table.nomors (t : Table) : List String :=
  t.rows.map Row.nomor

/-- Query `SELECT nomor FROM pick_numbers WHERE nomor IN (?)`: the `nomor` of every
row whose value is among `numbers`.  (A collation that identifies different strings can
make the server return further rows; none of them has a `nomor` equal to an entry of
`numbers`, and the membership test the caller runs on the result is exact.) -/
def queryCheck (t : Table) (numbers : List String) : List String :=
  (t.rows.filter (fun r => numbers.contains r.nomor)).map Row.nomor

/-- The rows the batched INSERT creates: one per element of `values`, in order, with
consecutive AUTO_INCREMENT ids and `updated_at` left NULL. -/
def insertedRows : Nat → List (String × String × String) → List Row
  | _, [] => []
  | id, (u, n, c) :: rest =>
      { id := id, uuid := u, nomor := n, created_at := c, updated_at := none }
        :: insertedRows (id + 1) rest

/-- Query `INSERT INTO pick_numbers (uuid, nomor, created_at) VALUES ?`.  The table has
no unique index on `nomor`, so every element of `values` becomes a row.  Column
`nomor` is `VARCHAR(20)`: under the strict SQL mode that MySQL uses by default, a value
of more than 20 characters makes the whole statement fail and no row is written. -/
def queryInsert (t : Table) (values : List (String × String × String)) :
    Except SqlError Table :=
  if values.all (fun v => decide (v.2.1.length ≤ 20)) then
    .ok { rows := t.rows ++ insertedRows t.nextId values
          nextId := t.nextId + values.length }
  else
    .error .dataTooLong

/-- The array `values` built by `newNumbers.map(number => [uuidv4(), number, now])`;
`i` is the position of the head of the list in `newNumbers`. -/
def insertValues (h : Host) : Nat → List String → List (String × String × String)
  | _, [] => []
  | i, n :: rest => (h.uuidv4 i, n, h.now i) :: insertValues h (i + 1) rest

/-- Function `saveNumbersToDatabase(numbers)`.  A query that throws makes the function
rethrow (`.error`); the table is then as it was. -/
def saveNumbersToDatabase (h : Host) (t : Table) (numbers : List String) :
    Except SqlError (SaveResult × Table) :=
  let existingNumbers := queryCheck t numbers
  let existingNumbersSet := existingNumbers
  let newNumbers := numbers.filter (fun number => !existingNumbersSet.contains number)
  let duplicateCount := numbers.length - newNumbers.length
  let successCount := newNumbers.length
  if newNumbers.length > 0 then
    let values := insertValues h 0 newNumbers
    match queryInsert t values with
    | .error e => .error e
    | .ok t' => .ok ({ successCount := successCount, duplicateCount := duplicateCount }, t')
  else
    .ok ({ successCount := successCount, duplicateCount := duplicateCount }, t)

/-! ## The remote portal -/

/-- An element of the array `getWaNumbers` returns: `{ id, pickUpUrl }`; the
attribute `data-url` may be missing, which leaves `pickUpUrl` undefined. -/
structure ListingEntry where
  id : String
  pickUpUrl : Option String
deriving DecidableEq, Repr

/-- The value of `response.data.newTabOpenUrl`. -/
inductive JsValue where
  | undefined
  | string (s : String)
  | other (truthy : Bool)
deriving DecidableEq, Repr

/-- The body `response.data` as `pickUpNumber` reads it: `nullish` when the body is
null or undefined, so that reading a property of it throws a TypeError. -/
inductive ResponseData where
  | nullish
  | payload (newTabOpenUrl : JsValue)
deriving DecidableEq, Repr

/-- What the code reads of a response: the status, the rows that
`$('table tbody tr').map(...)` extracts from the page, and the JSON payload. -/
structure Response where
  status : Nat
  rows : List ListingEntry
  data : ResponseData
deriving DecidableEq, Repr

/-- Outcome of one awaited request.  `rejected` stands for every way the awaited
expression can throw: `status` is `error.response.status` when `error.response` exists
(axios rejected on the HTTP status) and `none` otherwise (network failure, or an
exception raised while the request was built or its answer parsed); `message` is
`error.message`. -/
inductive HttpResult where
  | resolved (response : Response)
  | rejected (status : Option Nat) (message : String)
deriving DecidableEq, Repr

/-- The text handed to `sendMessageWithRetry`: a literal, or the result of
`createSummaryMessage(totalProcessed, totalDuplicate)`, whose rendering also depends on
the clock and on `Math.random()`. -/
inductive Text where
  | literal (s : String)
  | summary (totalProcessed totalDuplicate : Nat)
deriving DecidableEq, Repr

/-- An observable step of a run: a call of one of the functions of `run.js`, or a
line written by `log(message, type)`. -/
inductive Event where
  | login
  | getWaNumbers
  | assignNewNumber
  | pickUpNumber (number : ListingEntry)
  | saveNumbersToDatabase (numbers : List String)
  | sendMessageWithRetry (text : Text)
  | sendMessage (attempt : Nat)
  | sleep (ms : Nat)
  | log (message : String) (type : String)
deriving DecidableEq, Repr

/-- Truthiness of a JavaScript value, as tested by `if (response.data.newTabOpenUrl)`. -/
def JsValue.truthy : JsValue → Bool
  | .undefined => false
  | .string s => s != ""
  | .other b => b

/-- Expression `url.match(/\d+/)`: the leftmost match of one or more ASCII digits,
taken greedily; `none` is the `null` of a string without a digit. -/
def matchDigits (url : String) : Option String :=
  let run := (url.toList.dropWhile (fun c => !c.isDigit)).takeWhile Char.isDigit
  if run.isEmpty then none else some (String.mk run)

/-- Function `login()`, reading its two requests from `net` at positions `cur` and
`cur + 1`.  Returns the boolean, the position after the last request it made and
the lines it logged. -/
def login (net : Nat → HttpResult) (cur : Nat) : Bool × Nat × List Event :=
  match net cur with
  | .rejected _ message =>
      (false, cur + 1,
        [.log "Mencoba login..." "info", .log ("Kesalahan login: " ++ message) "error"])
  | .resolved _ =>
      match net (cur + 1) with
      | .rejected _ message =>
          (false, cur + 2,
            [.log "Mencoba login..." "info", .log ("Kesalahan login: " ++ message) "error"])
      | .resolved loginResponse =>
          if loginResponse.status = 302 then
            (true, cur + 2, [.log "Mencoba login..." "info", .log "Login berhasil" "success"])
          else
            (false, cur + 2, [.log "Mencoba login..." "info", .log "Login gagal" "error"])

/-- Function `getWaNumbers()`, given the outcome of its one request. -/
def getWaNumbers (r : HttpResult) : List ListingEntry × List Event :=
  match r with
  | .resolved response => (response.rows, [])
  | .rejected _ message => ([], [.log ("Kesalahan mendapatkan nomor WA: " ++ message) "error"])

/-- Function `assignNewNumber()`, reading its two requests from `net`. -/
def assignNewNumber (net : Nat → HttpResult) : Bool × List Event :=
  match net 0 with
  | .rejected _ message =>
      (false, [.log "Mencoba menetapkan nomor baru..." "info",
        .log ("Kesalahan menetapkan nomor baru: " ++ message) "error"])
  | .resolved _ =>
      match net 1 with
      | .rejected _ message =>
          (false, [.log "Mencoba menetapkan nomor baru..." "info",
            .log ("Kesalahan menetapkan nomor baru: " ++ message) "error"])
      | .resolved response =>
          if response.status = 302 then
            (true, [.log "Mencoba menetapkan nomor baru..." "info",
              .log "Nomor baru berhasil ditetapkan" "success"])
          else
            (false, [.log "Mencoba menetapkan nomor baru..." "info",
              .log "Gagal menetapkan nomor baru" "error"])

/-- What the `try` block of `pickUpNumber` ends with: a returned value, or a thrown
error of which the `catch` block reads `error.response.status` and `error.message`. -/
inductive TryResult where
  | returned (value : Option String) (events : List Event)
  | threw (status : Option Nat) (message : String)
deriving DecidableEq, Repr

/-- The `try` block of `pickUpNumber(number)`: the claim form is fetched (request
`cur`), the claim is submitted (request `cur + 1`) and the value is extracted from
`response.data.newTabOpenUrl`.  A TypeError (property of null, `match` of a non-string,
index into a null match) is a thrown error without `response`; its `message` is
rendered as "TypeError". -/
def pickUpTry (net : Nat → HttpResult) (number : ListingEntry) (cur : Nat) :
    TryResult × Nat :=
  match net cur with
  | .rejected status message => (.threw status message, cur + 1)
  | .resolved _ =>
      match net (cur + 1) with
      | .rejected status message => (.threw status message, cur + 2)
      | .resolved response =>
          match response.data with
          | .nullish => (.threw none "TypeError", cur + 2)
          | .payload newTabOpenUrl =>
              if newTabOpenUrl.truthy then
                match newTabOpenUrl with
                | .string url =>
                    match matchDigits url with
                    | some phoneNumber => (.returned (some phoneNumber) [], cur + 2)
                    | none => (.threw none "TypeError", cur + 2)
                | _ => (.threw none "TypeError", cur + 2)
              else
                (.returned none [.log ("Gagal mengambil nomor " ++ number.id) "warning"],
                  cur + 2)

/-- What a call of `pickUpNumber` resolves to, the position in the request stream
after it, and its trace. -/
structure PickResult where
  value : Option String
  cur : Nat
  trace : List Event
deriving DecidableEq, Repr

/-- Function `pickUpNumber(number)`.  The requests of the call, those of the `login()`
calls and of the recursive calls included, are answered by `net` from position `cur`
on.  The recursion on 401/403 has no bound in the source; `fuel` bounds its depth here
and `none` means the bound was reached before the call resolved. -/
def pickUpNumber (net : Nat → HttpResult) : Nat → ListingEntry → Nat → Option PickResult
  | 0, _, _ => none
  | fuel + 1, number, cur =>
      match pickUpTry net number cur with
      | (.returned value events, cur1) =>
          some { value := value, cur := cur1, trace := .pickUpNumber number :: events }
      | (.threw status message, cur1) =>
          if status = some 401 ∨ status = some 403 then
            let (loggedIn, cur2, loginEvents) := login net cur1
            let head : List Event :=
              [.pickUpNumber number,
                .log "Sesi atau cookie kedaluwarsa. Mencoba login lagi..." "warning",
                .login] ++ loginEvents
            if loggedIn then
              match pickUpNumber net fuel number cur2 with
              | none => none
              | some r => some { r with trace := head ++ r.trace }
            else
              some { value := none, cur := cur2
                     trace := head ++ [.log "Gagal login setelah sesi kedaluwarsa." "error"] }
          else if status = some 422 then
            some { value := none, cur := cur1
                   trace := [.pickUpNumber number,
                     .log ("Nomor " ++ number.id ++ " sudah tidak tersedia") "warning"] }
          else
            some { value := none, cur := cur1
                   trace := [.pickUpNumber number,
                     .log ("Kesalahan saat mengambil nomor " ++ number.id ++ ": " ++ message)
                       "error"] }

/-- Expression `results.filter(Boolean)`: drops `null` and the empty string. -/
def filterBoolean (results : List (Option String)) : List String :=
  results.filterMap (fun r => match r with
    | some s => if s != "" then some s else none
    | none => none)

/-- Number of `login()` calls in a trace. -/
def loginCalls (trace : List Event) : Nat :=
  trace.count .login

/-- Number of claim attempts in a trace: executions of the body of `pickUpNumber`. -/
def claimAttempts (trace : List Event) : Nat :=
  (trace.filter (fun e => match e with
    | .pickUpNumber _ => true
    | _ => false)).length

/-! ## The Telegram transport -/

/-- An object `parameters` of the Telegram API, with its `retry_after` in seconds. -/
structure TgParameters where
  retry_after : Option Nat
deriving DecidableEq, Repr

/-- The object `error.response`, as far as this program can see it: the property
`parameters` that `sendMessageWithRetry` reads, and the `parameters` of the parsed
`body` (`error.response.body.parameters`), which it does not read. -/
structure TgResponse where
  parameters : Option TgParameters
  bodyParameters : Option TgParameters
deriving DecidableEq, Repr

/-- The error `bot.sendMessage` rejects with. -/
structure TgError where
  code : String
  message : String
  response : Option TgResponse
deriving DecidableEq, Repr

/-- The errors that the bot of `node-telegram-bot-api` (the `bot` of lines 7 and 11,
the one passed at every call site) rejects with.  A `FatalError` (`EFATAL`) has no
`response`; a `ParseError` (`EPARSE`) and a `TelegramError` (`ETELEGRAM`) have the HTTP
response as `response`.  That object holds the answer of Telegram, a rate-limit hint
included, in its `body`; it has no property `parameters` of its own. -/
def TgError.fromLibrary (e : TgError) : Bool :=
  match e.response with
  | none => e.code != "ETELEGRAM"
  | some response => response.parameters.isNone

/-- What `sendMessageWithRetry` can throw: the error of the last attempt, or the
TypeError of reading `parameters` of an undefined `error.response`. -/
inductive SendThrown where
  | error (e : TgError)
  | typeError
deriving DecidableEq, Repr

/-- Condition `error.response.parameters && error.response.parameters.retry_after`:
the truthy `retry_after`, if there is one. -/
def TgResponse.retryAfter (r : TgResponse) : Option Nat :=
  match r.parameters with
  | none => none
  | some p =>
      match p.retry_after with
      | some n => if n = 0 then none else some n
      | none => none

/-- The `for (let i = 0; i < retries; i++)` loop of `sendMessageWithRetry`, entered at
index `i` with `remaining = retries - i` passes left; `send i` is the outcome of
`bot.sendMessage` in pass `i` (`none`: it resolved).  Falling off the end of the loop
returns normally, like the `return` after a successful send. -/
def sendLoop (send : Nat → Option TgError) (retries delay : Nat) :
    Nat → Nat → Except SendThrown Unit × List Event
  | 0, _ => (.ok (), [])
  | remaining + 1, i =>
      match send i with
      | none => (.ok (), [.sendMessage i])
      | some error =>
          let ordinary : Except SendThrown Unit × List Event :=
            if i + 1 = retries then
              (.error (.error error), [.sendMessage i])
            else
              let rest := sendLoop send retries delay remaining (i + 1)
              (rest.1, [.sendMessage i, .sleep delay] ++ rest.2)
          if error.code = "ETELEGRAM" then
            match error.response with
            | none => (.error .typeError, [.sendMessage i])
            | some response =>
                match response.retryAfter with
                | some retry_after =>
                    let retryAfter := retry_after * 1000
                    let rest := sendLoop send retries delay remaining (i + 1)
                    (rest.1,
                      [.sendMessage i,
                        .log ("Rate limit hit. Waiting for " ++ toString retryAfter
                          ++ "ms before retrying...") "warning",
                        .sleep retryAfter] ++ rest.2)
                | none => ordinary
          else
            ordinary

/-- Function `sendMessageWithRetry(bot, chatId, text, retries, delay)`. -/
def sendMessageWithRetry (send : Nat → Option TgError) (retries delay : Nat) :
    Except SendThrown Unit × List Event :=
  sendLoop send retries delay retries 0

/-- Default value of parameter `retries` of `sendMessageWithRetry`. -/
def defaultRetries : Nat := 3

/-- Default value of parameter `delay` of `sendMessageWithRetry`, in milliseconds. -/
def defaultDelay : Nat := 1000

/-- Number of `bot.sendMessage` calls in a trace. -/
def sendAttempts (trace : List Event) : Nat :=
  (trace.filter (fun e => match e with
    | .sendMessage _ => true
    | _ => false)).length

/-! ## The claim loop of `processPickCommand` -/

/-- Everything a run of `processPickCommand` receives from outside.  `loginNet` answers
the requests of the initial `login()`; `listing k` answers the request of the `k`-th
`getWaNumbers()` call, `assign k` those of the `k`-th `assignNewNumber()` call;
`claim k` is what the `k`-th `pickUpNumber` call of the loop resolves to (the calls of
one batch run concurrently under `Promise.all`, and the loop reads only their results);
`host k` serves the `k`-th `saveNumbersToDatabase` call and `send k` the `k`-th
`sendMessageWithRetry` call. -/
structure World where
  loginNet : Nat → HttpResult
  listing : Nat → HttpResult
  assign : Nat → Nat → HttpResult
  claim : Nat → Option String
  host : Nat → Host
  send : Nat → Nat → Option TgError

/-- The variables of the loop (`totalProcessed`, `totalDuplicate`,
`consecutiveEmptyAttempts`), the table, the number of calls made so far of each
function answered by the `World`, and the trace of the run. -/
structure LoopState where
  totalProcessed : Nat
  totalDuplicate : Nat
  consecutiveEmptyAttempts : Nat
  table : Table
  listings : Nat
  assigns : Nat
  claims : Nat
  saves : Nat
  trace : List Event

/-- How one pass through the body of `while (true)` ends: at the end of the body or at
a `continue` (`next`), at a `break` (`done`), or with the exception thrown by
`saveNumbersToDatabase` (`threw`). -/
inductive Control where
  | next
  | done
  | threw (e : SqlError)
deriving DecidableEq, Repr

/-- Constant `MAX_EMPTY_ATTEMPTS`. -/
def MAX_EMPTY_ATTEMPTS : Nat := 2

/-- The results of the claims of one batch, `await Promise.all(promises)`: the `i`-th
entry of the listing is the call number `first + i` of the run. -/
def claimResults (claim : Nat → Option String) : Nat → List ListingEntry → List (Option String)
  | _, [] => []
  | first, _ :: rest => claim first :: claimResults claim (first + 1) rest

/-- Lines 363-383 of `processPickCommand`: the body of the loop from the second test
`numbers.length === 0` on. -/
def claimAndPersist (w : World) (s : LoopState) (numbers : List ListingEntry) :
    Control × LoopState :=
  if numbers.length = 0 then
    let s := { s with consecutiveEmptyAttempts := s.consecutiveEmptyAttempts + 1 }
    if s.consecutiveEmptyAttempts ≥ MAX_EMPTY_ATTEMPTS then
      (.done, { s with trace := s.trace ++
        [.log "Tidak ada nomor tersedia setelah 2 percobaan. Menghentikan proses." "error"] })
    else
      (.next, s)
  else
    let s := { s with consecutiveEmptyAttempts := 0 }
    let results := claimResults w.claim s.claims numbers
    let s := { s with claims := s.claims + numbers.length
                      trace := s.trace ++ numbers.map Event.pickUpNumber }
    let successfulNumbers := filterBoolean results
    if successfulNumbers.length > 0 then
      let s := { s with saves := s.saves + 1
                        trace := s.trace ++ [.saveNumbersToDatabase successfulNumbers] }
      match saveNumbersToDatabase (w.host (s.saves - 1)) s.table successfulNumbers with
      | .error e => (.threw e, s)
      | .ok (saveResult, table) =>
          (.next, { s with totalProcessed := s.totalProcessed + saveResult.successCount
                           totalDuplicate := s.totalDuplicate + saveResult.duplicateCount
                           table := table })
    else
      (.next, s)

/-- One pass through the body of the `while (true)` loop of `processPickCommand`. -/
def loopBody (w : World) (s : LoopState) : Control × LoopState :=
  let listed := getWaNumbers (w.listing s.listings)
  let numbers := listed.1
  let s := { s with listings := s.listings + 1
                    trace := s.trace ++ [Event.getWaNumbers] ++ listed.2 }
  if numbers.length = 0 then
    let assignedResult := assignNewNumber (w.assign s.assigns)
    let assigned := assignedResult.1
    let s := { s with assigns := s.assigns + 1
                      trace := s.trace ++
                        [Event.log "Tidak ada nomor ditemukan. Mencoba menetapkan nomor baru..."
                          "warning", Event.assignNewNumber] ++ assignedResult.2 }
    if assigned then
      let listed := getWaNumbers (w.listing s.listings)
      let numbers := listed.1
      let s := { s with listings := s.listings + 1
                        trace := s.trace ++
                          [Event.log ("Nomor baru berhasil ditetapkan. " ++
                            "Mencoba mendapatkan nomor lagi...") "success", Event.getWaNumbers]
                          ++ listed.2 }
      claimAndPersist w s numbers
    else
      let s := { s with consecutiveEmptyAttempts := s.consecutiveEmptyAttempts + 1 }
      if s.consecutiveEmptyAttempts ≥ MAX_EMPTY_ATTEMPTS then
        (.done, { s with trace := s.trace ++
          [.log "Gagal mendapatkan nomor setelah 2 percobaan. Menghentikan proses." "error"] })
      else
        (.next, s)
  else
    claimAndPersist w s numbers

/-- The `while (true)` loop: passes through the body until one ends with `break`
(result `(none, s)`) or with an exception (result `(some e, s)`).  The source puts no
bound on the number of passes; `fuel` bounds it here and `none` means the loop was
still running after `fuel` passes. -/
def claimLoop (w : World) : Nat → LoopState → Option (Option SqlError × LoopState)
  | 0, _ => none
  | fuel + 1, s =>
      match loopBody w s with
      | (.next, s') => claimLoop w fuel s'
      | (.done, s') => some (none, s')
      | (.threw e, s') => some (some e, s')

/-- The state in which the loop is entered: the three `let` of lines 339-341. -/
def initialState (table : Table) (trace : List Event) : LoopState :=
  { totalProcessed := 0, totalDuplicate := 0, consecutiveEmptyAttempts := 0
    table := table, listings := 0, assigns := 0, claims := 0, saves := 0
    trace := trace }

/-- Property `error.message` of what `processPickCommand` catches. -/
def SqlError.message : SqlError → String
  | .dataTooLong => "ER_DATA_TOO_LONG"

/-- Property `error.message` of what `sendMessageWithRetry` throws. -/
def SendThrown.message : SendThrown → String
  | .error e => e.message
  | .typeError => "TypeError"

/-- What a run of `processPickCommand` leaves: its trace, the table, and whether its
promise rejected (the `sendMessageWithRetry` of the `catch` block threw). -/
structure RunResult where
  trace : List Event
  table : Table
  rejected : Bool

/-- The `catch` block of `processPickCommand`; `sends` is the number of
`sendMessageWithRetry` calls made before. -/
def catchBlock (w : World) (trace : List Event) (table : Table) (sends : Nat)
    (message : String) : RunResult :=
  let text := Text.literal ("Terjadi kesalahan: " ++ message)
  let sent := sendMessageWithRetry (w.send sends) defaultRetries defaultDelay
  { trace := trace ++ [.log ("Kesalahan dalam memproses permintaan: " ++ message) "error",
      .sendMessageWithRetry text] ++ sent.2
    table := table
    rejected := match sent.1 with
      | .ok _ => false
      | .error _ => true }

/-- Function `processPickCommand(chatId)`, run against table `table` with at most `fuel`
passes through the claim loop. -/
def processPickCommand (w : World) (fuel : Nat) (table : Table) : Option RunResult :=
  let loggedIn := login w.loginNet 0
  let trace : List Event := .login :: loggedIn.2.2
  if !loggedIn.1 then
    let text := Text.literal "Login gagal. Tidak dapat memproses permintaan."
    let sent := sendMessageWithRetry (w.send 0) defaultRetries defaultDelay
    let trace : List Event := trace ++ [Event.sendMessageWithRetry text] ++ sent.2
    match sent.1 with
    | .ok _ => some { trace := trace, table := table, rejected := false }
    | .error e => some (catchBlock w trace table 1 e.message)
  else
    match claimLoop w fuel (initialState table trace) with
    | none => none
    | some (some e, s) => some (catchBlock w s.trace s.table 0 e.message)
    | some (none, s) =>
        let summaryMessage := Text.summary s.totalProcessed s.totalDuplicate
        let sent := sendMessageWithRetry (w.send 0) defaultRetries defaultDelay
        let trace : List Event :=
          s.trace ++ [Event.sendMessageWithRetry summaryMessage] ++ sent.2
        match sent.1 with
        | .ok _ => some { trace := trace, table := s.table, rejected := false }
        | .error e => some (catchBlock w trace s.table 1 e.message)

/-- The entries for which a trace records a `pickUpNumber` call, in order. -/
def pickUpCalls (trace : List Event) : List ListingEntry :=
  trace.filterMap (fun e => match e with
    | .pickUpNumber number => some number
    | _ => none)

/-- The batches for which a trace records a `saveNumbersToDatabase` call, in order. -/
def saveCalls (trace : List Event) : List (List String) :=
  trace.filterMap (fun e => match e with
    | .saveNumbersToDatabase numbers => some numbers
    | _ => none)

/-- A pass of the loop that starts in state `s` ends with an empty `numbers`: the
listing is empty and either `assignNewNumber()` returns false or the listing fetched
after it is empty again.  These are the passes in which the source increments
`consecutiveEmptyAttempts` (lines 354 and 364). -/
def emptyPass (w : World) (s : LoopState) : Bool :=
  (getWaNumbers (w.listing s.listings)).1.isEmpty &&
    (!(assignNewNumber (w.assign s.assigns)).1 ||
      (getWaNumbers (w.listing (s.listings + 1))).1.isEmpty)

/-- The state in which pass number `n` (counted from 0) of the loop entered in state `s`
starts; `none` if the loop left before. -/
def stateAfter (w : World) : Nat → LoopState → Option LoopState
  | 0, s => some s
  | n + 1, s =>
      match loopBody w s with
      | (.next, s') => stateAfter w n s'
      | _ => none

/-! ## Concrete inputs used in the examples -/

/-- A host whose `uuidv4()` and clock always give the same strings. -/
def sampleHost : Host :=
  { uuidv4 := fun _ => "00000000-0000-4000-8000-000000000000"
    now := fun _ => "2024-01-01 00:00:00" }

/-- The distinct claimed values that are in table `t'` and were not in table `t`. -/
def addedValues (t t' : Table) : List String :=
  (t'.nomors.filter (fun n => decide (n ∉ t.nomors))).dedup

/-- An entry of a listing. -/
def sampleEntry : ListingEntry :=
  { id := "7", pickUpUrl := some "/wa_numbers/7/pick_up_form" }

/-- A response that carries an HTML page. -/
def page : Response :=
  { status := 200, rows := [], data := .payload .undefined }

/-- The redirect that answers a form the portal accepted. -/
def redirect : Response :=
  { status := 302, rows := [], data := .payload .undefined }

/-- The JSON answer to a claim that succeeded, with its `newTabOpenUrl`. -/
def claimed (url : String) : Response :=
  { status := 200, rows := [], data := .payload (.string url) }

/-- A portal that answers the claim form with 401, accepts the login, answers the
submitted claim with 403, accepts the login again and then lets the claim through. -/
def expiredTwice : Nat → HttpResult
  | 0 => .rejected (some 401) "Request failed with status code 401"
  | 1 => .resolved page
  | 2 => .resolved redirect
  | 3 => .resolved page
  | 4 => .rejected (some 403) "Request failed with status code 403"
  | 5 => .resolved page
  | 6 => .resolved redirect
  | 7 => .resolved page
  | _ => .resolved (claimed "https://wa.me/628123?text=halo")

/-- A portal that answers every submitted claim with 422. -/
def conflict : Nat → HttpResult
  | 0 => .resolved page
  | _ => .rejected (some 422) "Request failed with status code 422"

/-- A portal that lets the claim through at once. -/
def cooperative : Nat → HttpResult
  | 0 => .resolved page
  | _ => .resolved (claimed "https://wa.me/628123?text=halo")

/-- The error the bot rejects with when Telegram answers 429 with a rate-limit hint of
one second. -/
def rateLimited : TgError :=
  { code := "ETELEGRAM", message := "ETELEGRAM: 429 Too Many Requests: retry after 1"
    response := some { parameters := none
                       bodyParameters := some { retry_after := some 1 } } }

/-- A send failure without a rate-limit hint. -/
def connectionReset : TgError :=
  { code := "EFATAL", message := "EFATAL: socket hang up", response := none }

/-- A transport on which every send is answered with the rate-limit error. -/
def alwaysRateLimited : Nat → Option TgError :=
  fun _ => some rateLimited

/-- A listing page with two rows. -/
def twoRows : Response :=
  { status := 200
    rows := [{ id := "7", pickUpUrl := some "/wa_numbers/7/pick_up_form" },
             { id := "8", pickUpUrl := some "/wa_numbers/8/pick_up_form" }]
    data := .payload .undefined }

/-- A world in which the login succeeds, every listing is empty and every
replenishment request is refused. -/
def exhaustedWorld : World :=
  { loginNet := fun i => if i = 0 then .resolved page else .resolved redirect
    listing := fun _ => .resolved page
    assign := fun _ _ => .resolved page
    claim := fun _ => none
    host := fun _ => sampleHost
    send := fun _ _ => none }

/-- A world in which the login succeeds, every listing is empty and every
replenishment request succeeds. -/
def replenishedEmptyWorld : World :=
  { loginNet := fun i => if i = 0 then .resolved page else .resolved redirect
    listing := fun _ => .resolved page
    assign := fun _ i => if i = 0 then .resolved page else .resolved redirect
    claim := fun _ => none
    host := fun _ => sampleHost
    send := fun _ _ => none }

/-- A world in which the first listing is empty, the replenishment request succeeds and
the second listing has two rows, whose claims give 628111 and `null`; every later
listing is empty and every later replenishment request is refused. -/
def replenishedWorld : World :=
  { loginNet := fun i => if i = 0 then .resolved page else .resolved redirect
    listing := fun k => if k = 1 then .resolved twoRows else .resolved page
    assign := fun k i => if k = 0 ∧ i = 1 then .resolved redirect else .resolved page
    claim := fun k => if k = 0 then some "628111" else none
    host := fun _ => sampleHost
    send := fun _ _ => none }

/-- A world in which the login succeeds and every listing has two rows, none of which
can be claimed. -/
def busyWorld : World :=
  { loginNet := fun i => if i = 0 then .resolved page else .resolved redirect
    listing := fun _ => .resolved twoRows
    assign := fun _ _ => .resolved page
    claim := fun _ => none
    host := fun _ => sampleHost
    send := fun _ _ => none }

/-! ## Lemmas on the ledger -/

theorem insertedRows_nomor (id : Nat) (vs : List (String × String × String)) :
    (insertedRows id vs).map Row.nomor = vs.map (fun v => v.2.1) := by
  induction vs generalizing id with
  | nil => rfl
  | cons v rest ih =>
    obtain ⟨u, n, c⟩ := v
    simp [insertedRows, ih]

theorem insertValues_nomor (h : Host) (i : Nat) (ns : List String) :
    (insertValues h i ns).map (fun v => v.2.1) = ns := by
  induction ns generalizing i with
  | nil => rfl
  | cons n rest ih => simp [insertValues, ih]

theorem insertValues_length (h : Host) (i : Nat) (ns : List String) :
    (insertValues h i ns).length = ns.length := by
  induction ns generalizing i with
  | nil => rfl
  | cons n rest ih => simp [insertValues, ih]

theorem insertValues_all (h : Host) (i : Nat) (ns : List String) :
    (insertValues h i ns).all (fun v => decide (v.2.1.length ≤ 20))
      = ns.all (fun n => decide (n.length ≤ 20)) := by
  induction ns generalizing i with
  | nil => rfl
  | cons n rest ih => simp only [insertValues, List.all_cons, ih]

theorem mem_queryCheck (t : Table) (numbers : List String) (x : String) :
    x ∈ queryCheck t numbers ↔ x ∈ t.nomors ∧ x ∈ numbers := by
  unfold queryCheck Table.nomors
  simp only [List.mem_map, List.mem_filter, List.contains_iff_exists_mem_beq, beq_iff_eq,
    exists_eq_right']
  constructor
  · rintro ⟨r, ⟨hr, hin⟩, rfl⟩
    exact ⟨⟨r, hr, rfl⟩, hin⟩
  · rintro ⟨⟨r, hr, rfl⟩, hin⟩
    exact ⟨r, ⟨hr, hin⟩, rfl⟩

/-- The `newNumbers` of a call: the batch entries whose value is not in the table. -/
theorem newNumbers_eq (t : Table) (numbers : List String) :
    numbers.filter (fun number => !(queryCheck t numbers).contains number)
      = numbers.filter (fun number => decide (number ∉ t.nomors)) := by
  apply List.filter_congr
  intro x hx
  have := mem_queryCheck t numbers x
  by_cases hm : x ∈ t.nomors
  · have hq : x ∈ queryCheck t numbers := this.2 ⟨hm, hx⟩
    simp [hm, hq]
  · have hq : x ∉ queryCheck t numbers := fun hq => hm (this.1 hq).1
    simp [hm, hq]



/-- What `saveNumbersToDatabase` returns and writes, in terms of the values that were in
the table before the call. -/
theorem saveNumbersToDatabase_eq (h : Host) (t : Table) (numbers : List String) :
    saveNumbersToDatabase h t numbers =
      if (numbers.filter (fun n => decide (n ∉ t.nomors))).all
          (fun n => decide (n.length ≤ 20)) then
        .ok ({ successCount := (numbers.filter (fun n => decide (n ∉ t.nomors))).length
               duplicateCount := numbers.length
                 - (numbers.filter (fun n => decide (n ∉ t.nomors))).length },
             if (numbers.filter (fun n => decide (n ∉ t.nomors))).length > 0 then
               { rows := t.rows ++ insertedRows t.nextId
                   (insertValues h 0 (numbers.filter (fun n => decide (n ∉ t.nomors))))
                 nextId := t.nextId
                   + (numbers.filter (fun n => decide (n ∉ t.nomors))).length }
             else t)
      else .error .dataTooLong := by
  unfold saveNumbersToDatabase
  simp only [newNumbers_eq]
  generalize hnew : numbers.filter (fun n => decide (n ∉ t.nomors)) = newNumbers
  have hall : (insertValues h 0 newNumbers).all (fun v => decide (v.2.1.length ≤ 20))
      = newNumbers.all (fun n => decide (n.length ≤ 20)) := insertValues_all h 0 newNumbers
  by_cases hpos : newNumbers.length > 0
  · simp only [hpos, if_true, queryInsert, hall, insertValues_length]
    by_cases hfit : newNumbers.all (fun n => decide (n.length ≤ 20)) = true
    · simp [hfit]
    · simp [hfit]
  · have hnil : newNumbers = [] := by
      cases newNumbers with
      | nil => rfl
      | cons a l => simp at hpos
    subst hnil
    rfl

/-- The values in the table after a call that returned. -/
theorem saveNumbersToDatabase_nomors (h : Host) (t t' : Table) (numbers : List String)
    (r : SaveResult) (hsave : saveNumbersToDatabase h t numbers = .ok (r, t')) :
    t'.nomors = t.nomors ++ numbers.filter (fun n => decide (n ∉ t.nomors)) ∧
      r.successCount = (numbers.filter (fun n => decide (n ∉ t.nomors))).length ∧
      r.duplicateCount = numbers.length
        - (numbers.filter (fun n => decide (n ∉ t.nomors))).length := by
  rw [saveNumbersToDatabase_eq] at hsave
  split at hsave
  · injection hsave with hsave
    injection hsave with hr ht
    subst hr
    refine ⟨?_, rfl, rfl⟩
    subst ht
    split
    · simp [Table.nomors, insertedRows_nomor, insertValues_nomor]
    · next hlen =>
      have : numbers.filter (fun n => decide (n ∉ t.nomors)) = [] := by
        cases hf : numbers.filter (fun n => decide (n ∉ t.nomors)) with
        | nil => rfl
        | cons a l => rw [hf] at hlen; simp at hlen
      rw [this, List.append_nil]
  · cases hsave

/-- Splitting a batch into the values that are in a list and those that are not. -/
theorem length_filter_mem_add (l : List String) (numbers : List String) :
    (numbers.filter (fun n => decide (n ∈ l))).length
      + (numbers.filter (fun n => decide (n ∉ l))).length = numbers.length := by
  induction numbers with
  | nil => rfl
  | cons a rest ih =>
    by_cases ha : a ∈ l
    · simp only [List.filter_cons, ha, decide_True, decide_False, not_true_eq_false, if_true,
        Bool.false_eq_true, if_false, List.length_cons]
      omega
    · simp only [List.filter_cons, ha, decide_True, decide_False, not_false_eq_true, if_true,
        Bool.false_eq_true, if_false, List.length_cons]
      omega

/-- C1. A call of `saveNumbersToDatabase` either returns or rethrows the error of the
INSERT.  When it returns, `successCount + duplicateCount` is the length of the batch,
`duplicateCount` is the number of batch entries whose value was in the table before the
call, `successCount` the number of those whose value was not, the rows added are
exactly the latter entries in order, and a value that was in the table has as many rows
after the call as before.  It rethrows only if a value to insert exceeds the 20
characters of column `nomor`. -/
theorem saveNumbersToDatabase_counts (h : Host) (t : Table) (numbers : List String) :
    match saveNumbersToDatabase h t numbers with
    | .ok (r, t') =>
        r.successCount + r.duplicateCount = numbers.length ∧
        r.duplicateCount = (numbers.filter (fun n => decide (n ∈ t.nomors))).length ∧
        r.successCount = (numbers.filter (fun n => decide (n ∉ t.nomors))).length ∧
        t'.nomors = t.nomors ++ numbers.filter (fun n => decide (n ∉ t.nomors)) ∧
        (∀ n, n ∈ t.nomors → t'.nomors.count n = t.nomors.count n)
    | .error _ => ∃ n, n ∈ numbers ∧ n ∉ t.nomors ∧ 20 < n.length := by
  have hsplit := length_filter_mem_add t.nomors numbers
  cases hsave : saveNumbersToDatabase h t numbers with
  | ok p =>
    obtain ⟨r, t'⟩ := p
    obtain ⟨hn, hs, hd⟩ := saveNumbersToDatabase_nomors h t t' numbers r hsave
    refine ⟨by omega, by omega, hs, hn, ?_⟩
    intro n hmem
    rw [hn, List.count_append]
    have : (numbers.filter (fun n => decide (n ∉ t.nomors))).count n = 0 := by
      apply List.count_eq_zero_of_not_mem
      intro hin
      have := (List.mem_filter.mp hin).2
      simp [hmem] at this
    omega
  | error e =>
    rw [saveNumbersToDatabase_eq] at hsave
    split at hsave
    · cases hsave
    · next hfit =>
      simp only [List.all_eq_true, List.mem_filter, decide_eq_true_eq, not_forall] at hfit
      obtain ⟨n, ⟨hin, hnot⟩, hlen⟩ := hfit
      exact ⟨n, hin, hnot, by omega⟩

/-- C2. Persisting the same batch a second time: if a call of `saveNumbersToDatabase`
returned, the same batch handed to it again (whatever the uuids and the clock) returns
`successCount = 0` and `duplicateCount = numbers.length` and leaves the table as the
first call left it. -/
theorem saveNumbersToDatabase_again (h1 h2 : Host) (t t1 : Table) (numbers : List String)
    (r1 : SaveResult) (hfirst : saveNumbersToDatabase h1 t numbers = .ok (r1, t1)) :
    saveNumbersToDatabase h2 t1 numbers
      = .ok ({ successCount := 0, duplicateCount := numbers.length }, t1) := by
  obtain ⟨hn, -, -⟩ := saveNumbersToDatabase_nomors h1 t t1 numbers r1 hfirst
  have hall : numbers.filter (fun n => decide (n ∉ t1.nomors)) = [] := by
    rw [List.filter_eq_nil_iff]
    intro n hin
    have : n ∈ t1.nomors := by
      rw [hn, List.mem_append]
      by_cases hm : n ∈ t.nomors
      · exact Or.inl hm
      · exact Or.inr (List.mem_filter.mpr ⟨hin, by simpa using hm⟩)
    simpa using this
  rw [saveNumbersToDatabase_eq, hall]
  rfl

/-- Witness of C2: persisting two values against the empty table gives 2 new and 0
duplicates, and the same call again gives 0 new and 2 duplicates. -/
theorem saveNumbersToDatabase_again_witness :
    (saveNumbersToDatabase sampleHost emptyTable ["628111", "628333"]).toOption.map Prod.fst
        = some { successCount := 2, duplicateCount := 0 } ∧
      ∃ t1, saveNumbersToDatabase sampleHost emptyTable ["628111", "628333"]
          = .ok ({ successCount := 2, duplicateCount := 0 }, t1) ∧
        saveNumbersToDatabase sampleHost t1 ["628111", "628333"]
          = .ok ({ successCount := 0, duplicateCount := 2 }, t1) :=
  ⟨by decide, _, rfl,
    saveNumbersToDatabase_again sampleHost sampleHost emptyTable _ ["628111", "628333"] _ rfl⟩

/-- Counterexample to C6 as stated: table `pick_numbers` has no unique key on `nomor`.
Against the table as `checkAndCreateTable` creates it, the batch that holds the value 628111 twice is saved with
`successCount = 2`; the table then holds that value in two rows, and the call added one
distinct value. -/
theorem saveNumbersToDatabase_not_unique :
    (checkAndCreateTable none).nomors.Nodup ∧
      ∃ t', saveNumbersToDatabase sampleHost (checkAndCreateTable none) ["628111", "628111"]
          = .ok ({ successCount := 2, duplicateCount := 0 }, t') ∧
        t'.nomors = ["628111", "628111"] ∧ ¬ t'.nomors.Nodup ∧
        (addedValues (checkAndCreateTable none) t').length = 1 :=
  ⟨by decide, _, rfl, by decide, by decide, by decide⟩

/-- C6, amended. If no claimed value occurs in two rows of the table and no value
occurs twice in the batch, then after a call of `saveNumbersToDatabase` that returned
no claimed value occurs in two rows, and `successCount` is the number of distinct
values the call added. -/
theorem saveNumbersToDatabase_nodup (h : Host) (t t' : Table) (numbers : List String)
    (r : SaveResult) (htable : t.nomors.Nodup) (hbatch : numbers.Nodup)
    (hsave : saveNumbersToDatabase h t numbers = .ok (r, t')) :
    t'.nomors.Nodup ∧ r.successCount = (addedValues t t').length := by
  obtain ⟨hn, hs, -⟩ := saveNumbersToDatabase_nomors h t t' numbers r hsave
  have hnew : (numbers.filter (fun n => decide (n ∉ t.nomors))).Nodup := hbatch.filter _
  have hdisj : ∀ a, a ∈ t.nomors → a ∉ numbers.filter (fun n => decide (n ∉ t.nomors)) := by
    intro a ha hin
    have := (List.mem_filter.mp hin).2
    simp [ha] at this
  constructor
  · rw [hn]
    exact List.Nodup.append htable hnew (fun a ha hin => hdisj a ha hin)
  · unfold addedValues
    rw [hs, hn, List.filter_append]
    have h1 : t.nomors.filter (fun n => decide (n ∉ t.nomors)) = [] := by
      rw [List.filter_eq_nil_iff]
      intro a ha
      simpa using ha
    rw [h1, List.nil_append, List.filter_filter]
    simp only [Bool.and_self]
    rw [hnew.dedup]

/-- Witness of the amended C6: two different values saved against the empty table. -/
theorem saveNumbersToDatabase_nodup_witness :
    ∃ t', saveNumbersToDatabase sampleHost emptyTable ["628111", "628333"]
        = .ok ({ successCount := 2, duplicateCount := 0 }, t') ∧
      t'.nomors.Nodup ∧ 2 = (addedValues emptyTable t').length :=
  ⟨_, rfl, saveNumbersToDatabase_nodup sampleHost emptyTable _ ["628111", "628333"] _
    (by decide) (by decide) rfl⟩

/-! ## Lemmas on `pickUpNumber` -/

theorem loginCalls_append (a b : List Event) :
    loginCalls (a ++ b) = loginCalls a + loginCalls b := by
  simp [loginCalls]

theorem claimAttempts_append (a b : List Event) :
    claimAttempts (a ++ b) = claimAttempts a + claimAttempts b := by
  simp [claimAttempts]

/-- The lines `login()` logs hold no call. -/
theorem login_events (net : Nat → HttpResult) (cur : Nat) :
    loginCalls (login net cur).2.2 = 0 ∧ claimAttempts (login net cur).2.2 = 0 := by
  unfold login
  split
  · simp [loginCalls, claimAttempts]
  · split
    · simp [loginCalls, claimAttempts]
    · split <;> simp [loginCalls, claimAttempts]

/-- A `try` block that returns has logged at most a warning, and its value is `null` or
a match of the digits pattern. -/
theorem pickUpTry_returned (net : Nat → HttpResult) (number : ListingEntry) (cur cur1 : Nat)
    (value : Option String) (events : List Event)
    (h : pickUpTry net number cur = (.returned value events, cur1)) :
    loginCalls events = 0 ∧ claimAttempts events = 0 ∧
      (value = none ∨ ∃ url, matchDigits url = value) := by
  unfold pickUpTry at h
  split at h
  · cases h
  · split at h
    · cases h
    · split at h
      · cases h
      · split at h
        · split at h
          · split at h
            · next hm =>
              injection h with h1 h2
              injection h1 with hv he
              subst hv he
              exact ⟨rfl, rfl, Or.inr ⟨_, hm⟩⟩
            · cases h
          · cases h
        · injection h with h1 h2
          injection h1 with hv he
          subst hv he
          exact ⟨by simp [loginCalls], by simp [claimAttempts], Or.inl rfl⟩

/-- How `/\d+/` splits a string in which it matches: no digit before the match, the
match is a non-empty run of digits, and the run ends where the string ends or a
character that is no digit follows. -/
theorem matchDigits_some (url value : String) (h : matchDigits url = some value) :
    ∃ pre post, url.toList = pre ++ value.toList ++ post ∧
      (∀ c ∈ pre, c.isDigit = false) ∧ value.toList ≠ [] ∧
      (∀ c ∈ value.toList, c.isDigit = true) ∧
      (∀ c, post.head? = some c → c.isDigit = false) := by
  unfold matchDigits at h
  simp only at h
  split at h
  · cases h
  · next hne =>
    injection h with h
    subst h
    refine ⟨url.toList.takeWhile (fun c => !c.isDigit),
      (url.toList.dropWhile (fun c => !c.isDigit)).dropWhile Char.isDigit, ?_, ?_, ?_, ?_, ?_⟩
    · show url.toList = _ ++ List.takeWhile Char.isDigit _ ++ _
      rw [List.append_assoc, List.takeWhile_append_dropWhile, List.takeWhile_append_dropWhile]
    · intro c hc
      have := List.mem_takeWhile_imp hc
      simpa using this
    · intro hnil
      apply hne
      show (List.takeWhile Char.isDigit _).isEmpty = true
      have : List.takeWhile Char.isDigit
          (List.dropWhile (fun c => !c.isDigit) url.toList) = [] := hnil
      rw [this]
      rfl
    · intro c hc
      exact List.mem_takeWhile_imp hc
    · intro c hc
      have := List.head?_dropWhile_not Char.isDigit
        (url.toList.dropWhile (fun c => !c.isDigit))
      rw [hc] at this
      exact this

/-- Pattern `/\d+/` fails exactly on the strings without a digit. -/
theorem matchDigits_none (url : String) :
    matchDigits url = none ↔ ∀ c ∈ url.toList, c.isDigit = false := by
  unfold matchDigits
  simp only
  constructor
  · intro h c hc
    split at h
    · next hemp =>
      by_contra hd
      have hdig : c.isDigit = true := by simpa using hd
      have hdrop : url.toList.dropWhile (fun c => !c.isDigit) ≠ [] := by
        intro hnil
        rw [List.dropWhile_eq_nil_iff] at hnil
        have := hnil c hc
        simp [hdig] at this
      have hhead := List.head_dropWhile_not (fun c => !c.isDigit) url.toList hdrop
      cases hl : url.toList.dropWhile (fun c => !c.isDigit) with
      | nil => exact hdrop hl
      | cons a rest =>
        simp only [hl, List.head_cons, Bool.not_eq_false'] at hhead
        rw [hl] at hemp
        simp [List.takeWhile_cons, hhead] at hemp
    · cases h
  · intro h
    have hnil : url.toList.dropWhile (fun c => !c.isDigit) = [] := by
      rw [List.dropWhile_eq_nil_iff]
      intro c hc
      simp [h c hc]
    rw [hnil]
    rfl

/-- A value matched by `/\d+/` is a non-empty string of digits. -/
theorem matchDigits_digits (url value : String) (h : matchDigits url = some value) :
    value ≠ "" ∧ ∀ c ∈ value.toList, c.isDigit = true := by
  obtain ⟨pre, post, -, -, hne, hall, -⟩ := matchDigits_some url value h
  refine ⟨?_, hall⟩
  intro hv
  apply hne
  rw [hv]
  rfl

/-- The `try` block when one of its two requests is rejected with an HTTP status. -/
theorem pickUpTry_rejected (net : Nat → HttpResult) (number : ListingEntry) (cur : Nat)
    (status : Option Nat) (message : String)
    (h : net cur = .rejected status message ∨
      ((∃ form, net cur = .resolved form) ∧ net (cur + 1) = .rejected status message)) :
    ∃ cur1, pickUpTry net number cur = (.threw status message, cur1) := by
  rcases h with h | ⟨⟨form, hform⟩, hsubmit⟩
  · exact ⟨cur + 1, by simp [pickUpTry, h]⟩
  · exact ⟨cur + 2, by simp [pickUpTry, hform, hsubmit]⟩

/-- The `try` block when both requests resolve and `newTabOpenUrl` is a non-empty
string. -/
theorem pickUpTry_url (net : Nat → HttpResult) (number : ListingEntry) (cur : Nat)
    (form response : Response) (url : String)
    (hform : net cur = .resolved form) (hsubmit : net (cur + 1) = .resolved response)
    (hdata : response.data = .payload (.string url)) (hne : url ≠ "") :
    pickUpTry net number cur =
      match matchDigits url with
      | some phoneNumber => (.returned (some phoneNumber) [], cur + 2)
      | none => (.threw none "TypeError", cur + 2) := by
  have htruthy : (JsValue.string url).truthy = true := by
    simp [JsValue.truthy, hne]
  simp only [pickUpTry, hform, hsubmit, hdata, htruthy, if_true]

/-- C9. When the claim form request or the claim submit request of `pickUpNumber` is
rejected with HTTP 422, the call resolves to `null`: its trace is the one claim attempt
followed by the warning of the dedicated branch ("Nomor ... sudah tidak tersedia"), so
there is no `login()` call, no second attempt and no line of type error; and `null` is
dropped by `results.filter(Boolean)`, so the entry is absent from the batch. -/
theorem pickUpNumber_unavailable (net : Nat → HttpResult) (number : ListingEntry)
    (cur fuel : Nat) (message : String)
    (h422 : net cur = .rejected (some 422) message ∨
      ((∃ form, net cur = .resolved form) ∧ net (cur + 1) = .rejected (some 422) message)) :
    ∃ r, pickUpNumber net (fuel + 1) number cur = some r ∧
      r.value = none ∧
      r.trace = [.pickUpNumber number,
        .log ("Nomor " ++ number.id ++ " sudah tidak tersedia") "warning"] ∧
      loginCalls r.trace = 0 ∧ claimAttempts r.trace = 1 ∧
      (∀ m, Event.log m "error" ∉ r.trace) ∧
      (∀ before after : List (Option String),
        filterBoolean (before ++ [r.value] ++ after)
          = filterBoolean before ++ filterBoolean after) := by
  obtain ⟨cur1, htry⟩ := pickUpTry_rejected net number cur (some 422) message h422
  refine ⟨{ value := none, cur := cur1
            trace := [.pickUpNumber number,
              .log ("Nomor " ++ number.id ++ " sudah tidak tersedia") "warning"] },
    ?_, rfl, rfl, ?_, ?_, ?_, ?_⟩
  · simp [pickUpNumber, htry]
  · simp [loginCalls]
  · simp [claimAttempts]
  · intro m hm
    simp at hm
  · intro before after
    simp [filterBoolean, List.filterMap_append]

/-- Witness of C9: the submitted claim is answered with 422. -/
theorem pickUpNumber_unavailable_witness :
    ∃ r, pickUpNumber conflict 1 sampleEntry 0 = some r ∧
      r.value = none ∧
      r.trace = [.pickUpNumber sampleEntry,
        .log ("Nomor " ++ sampleEntry.id ++ " sudah tidak tersedia") "warning"] ∧
      loginCalls r.trace = 0 ∧ claimAttempts r.trace = 1 ∧
      (∀ m, Event.log m "error" ∉ r.trace) ∧
      (∀ before after : List (Option String),
        filterBoolean (before ++ [r.value] ++ after)
          = filterBoolean before ++ filterBoolean after) :=
  pickUpNumber_unavailable conflict sampleEntry 0 0 "Request failed with status code 422"
    (Or.inr ⟨⟨page, rfl⟩, rfl⟩)

/-- C10. Let both requests of a claim resolve.  If `newTabOpenUrl` is a non-empty
string, then either it holds a digit, and `pickUpNumber` resolves to the leftmost
maximal run of digits of it (no digit before the run, the run is not empty and all
digits, no digit right after it), or it holds none, and `pickUpNumber` resolves to
`null` through its `catch` block.  If `newTabOpenUrl` is missing, `pickUpNumber`
resolves to `null`.  And whatever the portal answers, a call that resolves gives `null`
or a non-empty string of digits. -/
theorem pickUpNumber_value (net : Nat → HttpResult) (number : ListingEntry) (cur fuel : Nat) :
    (∀ form response url, net cur = .resolved form → net (cur + 1) = .resolved response →
      response.data = .payload (.string url) → url ≠ "" →
      ((∃ c ∈ url.toList, c.isDigit = true) →
        ∃ value pre post,
          pickUpNumber net (fuel + 1) number cur
            = some { value := some value, cur := cur + 2, trace := [.pickUpNumber number] } ∧
          url.toList = pre ++ value.toList ++ post ∧
          (∀ c ∈ pre, c.isDigit = false) ∧ value ≠ "" ∧
          (∀ c ∈ value.toList, c.isDigit = true) ∧
          (∀ c, post.head? = some c → c.isDigit = false)) ∧
      ((∀ c ∈ url.toList, c.isDigit = false) →
        pickUpNumber net (fuel + 1) number cur
          = some { value := none, cur := cur + 2
                   trace := [.pickUpNumber number,
                     .log ("Kesalahan saat mengambil nomor " ++ number.id ++ ": " ++ "TypeError")
                       "error"] })) ∧
    (∀ form response, net cur = .resolved form → net (cur + 1) = .resolved response →
      response.data = .payload .undefined →
      pickUpNumber net (fuel + 1) number cur
        = some { value := none, cur := cur + 2
                 trace := [.pickUpNumber number,
                   .log ("Gagal mengambil nomor " ++ number.id) "warning"] }) ∧
    (∀ r, pickUpNumber net fuel number cur = some r →
      r.value = none ∨
        ∃ value, r.value = some value ∧ value ≠ "" ∧ ∀ c ∈ value.toList, c.isDigit = true) := by
  refine ⟨?_, ?_, ?_⟩
  · intro form response url hform hsubmit hdata hne
    have htry := pickUpTry_url net number cur form response url hform hsubmit hdata hne
    constructor
    · intro hdigit
      cases hm : matchDigits url with
      | none =>
        obtain ⟨c, hc, hd⟩ := hdigit
        have := (matchDigits_none url).1 hm c hc
        rw [hd] at this
        cases this
      | some value =>
        obtain ⟨pre, post, hsplit, hpre, -, hall, hpost⟩ := matchDigits_some url value hm
        rw [hm] at htry
        refine ⟨value, pre, post, ?_, hsplit, hpre, (matchDigits_digits url value hm).1,
          hall, hpost⟩
        simp [pickUpNumber, htry]
    · intro hnone
      have hm := (matchDigits_none url).2 hnone
      rw [hm] at htry
      simp [pickUpNumber, htry]
  · intro form response hform hsubmit hdata
    simp [pickUpNumber, pickUpTry, hform, hsubmit, hdata, JsValue.truthy]
  · induction fuel generalizing cur with
    | zero => intro r h; cases h
    | succ fuel ih =>
      intro r h
      rw [pickUpNumber] at h
      split at h
      · next value events cur1 htry =>
        injection h with h
        subst h
        obtain ⟨-, -, hv⟩ := pickUpTry_returned net number cur cur1 value events htry
        rcases hv with hv | ⟨url, hv⟩
        · exact Or.inl hv
        · cases value with
          | none => exact Or.inl rfl
          | some v =>
            obtain ⟨hne, hall⟩ := matchDigits_digits url v hv
            exact Or.inr ⟨v, rfl, hne, hall⟩
      · next status message cur1 htry =>
        split at h
        · simp only at h
          split at h
          · split at h
            · cases h
            · next r' hr' =>
              injection h with h
              subst h
              exact ih _ r' hr'
          · injection h with h
            subst h
            exact Or.inl rfl
        · split at h
          · injection h with h
            subst h
            exact Or.inl rfl
          · injection h with h
            subst h
            exact Or.inl rfl

/-- Witness of C10: the claim succeeds with the URL `https://wa.me/628123?text=halo`,
and the value is 628123. -/
theorem pickUpNumber_value_witness :
    (pickUpNumber cooperative 1 sampleEntry 0).map PickResult.value = some (some "628123") ∧
    ∃ value pre post,
      pickUpNumber cooperative 1 sampleEntry 0
        = some { value := some value, cur := 2, trace := [.pickUpNumber sampleEntry] } ∧
      "https://wa.me/628123?text=halo".toList = pre ++ value.toList ++ post ∧
      (∀ c ∈ pre, c.isDigit = false) ∧ value ≠ "" ∧
      (∀ c ∈ value.toList, c.isDigit = true) ∧
      (∀ c, post.head? = some c → c.isDigit = false) :=
  ⟨by decide,
    ((pickUpNumber_value cooperative sampleEntry 0 0).1 page
      (claimed "https://wa.me/628123?text=halo") "https://wa.me/628123?text=halo"
      rfl rfl rfl (by decide)).1 ⟨ '6', by decide, by decide⟩⟩

/-- Every call of `pickUpNumber` that resolves has made one attempt more than it made
`login()` calls, unless its last `login()` failed: then it made as many and resolved to
`null`. -/
theorem pickUpNumber_calls (net : Nat → HttpResult) (number : ListingEntry) (fuel cur : Nat)
    (r : PickResult) (h : pickUpNumber net fuel number cur = some r) :
    claimAttempts r.trace = loginCalls r.trace + 1 ∨
      (claimAttempts r.trace = loginCalls r.trace ∧ r.value = none) := by
  induction fuel generalizing cur r with
  | zero => cases h
  | succ fuel ih =>
    rw [pickUpNumber] at h
    split at h
    · next value events cur1 htry =>
      injection h with h
      subst h
      obtain ⟨hl, hc, -⟩ := pickUpTry_returned net number cur cur1 value events htry
      left
      have h1 : claimAttempts (Event.pickUpNumber number :: events)
          = 1 + claimAttempts events := by
        simp [claimAttempts, List.filter_cons]
        omega
      have h2 : loginCalls (Event.pickUpNumber number :: events) = loginCalls events := by
        simp [loginCalls]
      simp only [h1, h2, hl, hc]
    · next status message cur1 htry =>
      obtain ⟨hl, hc⟩ := login_events net cur1
      have hhead : claimAttempts ([Event.pickUpNumber number,
            Event.log "Sesi atau cookie kedaluwarsa. Mencoba login lagi..." "warning",
            Event.login] ++ (login net cur1).2.2) = 1 ∧
          loginCalls ([Event.pickUpNumber number,
            Event.log "Sesi atau cookie kedaluwarsa. Mencoba login lagi..." "warning",
            Event.login] ++ (login net cur1).2.2) = 1 := by
        rw [claimAttempts_append, loginCalls_append, hl, hc]
        constructor
        · simp [claimAttempts]
        · simp [loginCalls]
      split at h
      · simp only at h
        split at h
        · split at h
          · cases h
          · next r' hr' =>
            injection h with h
            subst h
            have := ih _ r' hr'
            simp only [claimAttempts_append, loginCalls_append, hhead.1, hhead.2]
            rcases this with h1 | ⟨h1, h2⟩
            · left; omega
            · right; exact ⟨by omega, h2⟩
        · injection h with h
          subst h
          right
          refine ⟨?_, rfl⟩
          simp only [claimAttempts_append, loginCalls_append, hhead.1, hhead.2]
          simp [claimAttempts, loginCalls]
      · split at h
        · injection h with h
          subst h
          left
          simp [claimAttempts, loginCalls]
        · injection h with h
          subst h
          left
          simp [claimAttempts, loginCalls]

/-- Counterexample to C4 as stated: the claim form is answered with 401, the login
succeeds, the retried claim is answered with 403, the login succeeds again and the
third attempt goes through.  The one `pickUpNumber` call makes 3 claim attempts and 2
`login()` calls and resolves to the value 628123, not to `null`. -/
theorem pickUpNumber_three_attempts :
    ∃ r, pickUpNumber expiredTwice 3 sampleEntry 0 = some r ∧
      r.value = some "628123" ∧ claimAttempts r.trace = 3 ∧ loginCalls r.trace = 2 :=
  ⟨_, rfl, by decide, by decide, by decide⟩

/-- C4, amended. Let a claim attempt of `pickUpNumber` receive HTTP 401 or 403.  Then
`login()` is called exactly once for that answer.  If it fails, the call resolves to
`null` after that one attempt and that one login.  If it succeeds, the claim is retried
by a recursive call of `pickUpNumber`, and the outer call resolves exactly when the
recursive call does, to the same value, with one attempt and one login more; the
recursive call recovers from a further 401/403 in the same way.  So a call that resolves
has made at least one login, and one attempt more than logins unless its last login
failed, in which case it made as many attempts as logins and resolved to `null`. -/
theorem pickUpNumber_expiry (net : Nat → HttpResult) (number : ListingEntry) (cur fuel : Nat)
    (status : Option Nat) (message : String) (cur1 : Nat)
    (hthrew : pickUpTry net number cur = (.threw status message, cur1))
    (hstatus : status = some 401 ∨ status = some 403) :
    ((login net cur1).1 = false →
      ∃ r, pickUpNumber net (fuel + 1) number cur = some r ∧ r.value = none ∧
        loginCalls r.trace = 1 ∧ claimAttempts r.trace = 1) ∧
    ((login net cur1).1 = true →
      (pickUpNumber net (fuel + 1) number cur = none ↔
        pickUpNumber net fuel number (login net cur1).2.1 = none) ∧
      ∀ r', pickUpNumber net fuel number (login net cur1).2.1 = some r' →
        ∃ r, pickUpNumber net (fuel + 1) number cur = some r ∧ r.value = r'.value ∧
          loginCalls r.trace = 1 + loginCalls r'.trace ∧
          claimAttempts r.trace = 1 + claimAttempts r'.trace) ∧
    (∀ r, pickUpNumber net (fuel + 1) number cur = some r →
      1 ≤ loginCalls r.trace ∧
        (claimAttempts r.trace = loginCalls r.trace + 1 ∨
          (claimAttempts r.trace = loginCalls r.trace ∧ r.value = none))) := by
  obtain ⟨hl, hc⟩ := login_events net cur1
  have hhead : claimAttempts ([Event.pickUpNumber number,
        Event.log "Sesi atau cookie kedaluwarsa. Mencoba login lagi..." "warning",
        Event.login] ++ (login net cur1).2.2) = 1 ∧
      loginCalls ([Event.pickUpNumber number,
        Event.log "Sesi atau cookie kedaluwarsa. Mencoba login lagi..." "warning",
        Event.login] ++ (login net cur1).2.2) = 1 := by
    rw [claimAttempts_append, loginCalls_append, hl, hc]
    constructor
    · simp [claimAttempts]
    · simp [loginCalls]
  have hfail : (login net cur1).1 = false →
      ∃ r, pickUpNumber net (fuel + 1) number cur = some r ∧ r.value = none ∧
        loginCalls r.trace = 1 ∧ claimAttempts r.trace = 1 := by
    intro hlogin
    refine ⟨_, by simp only [pickUpNumber, hthrew, hstatus, if_true, hlogin]; rfl, rfl, ?_, ?_⟩
    · simp only [loginCalls_append, hhead.2]
      simp [loginCalls]
    · simp only [claimAttempts_append, hhead.1]
      simp [claimAttempts]
  have hok : (login net cur1).1 = true →
      pickUpNumber net (fuel + 1) number cur =
        (pickUpNumber net fuel number (login net cur1).2.1).map (fun r' =>
          { r' with trace := ([Event.pickUpNumber number,
            Event.log "Sesi atau cookie kedaluwarsa. Mencoba login lagi..." "warning",
            Event.login] ++ (login net cur1).2.2) ++ r'.trace }) := by
    intro hlogin
    simp only [pickUpNumber, hthrew, hstatus, if_true, hlogin]
    cases pickUpNumber net fuel number (login net cur1).2.1 <;> rfl
  refine ⟨hfail, ?_, ?_⟩
  · intro hlogin
    rw [hok hlogin]
    constructor
    · simp
    · intro r' hr'
      rw [hr']
      refine ⟨_, rfl, rfl, ?_, ?_⟩
      · simp only [loginCalls_append, hhead.2]
      · simp only [claimAttempts_append, hhead.1]
  · intro r hr
    refine ⟨?_, pickUpNumber_calls net number (fuel + 1) cur r hr⟩
    cases hlogin : (login net cur1).1 with
    | false =>
      obtain ⟨r0, hr0, -, h1, -⟩ := hfail hlogin
      rw [hr0] at hr
      injection hr with hr
      subst hr
      omega
    | true =>
      rw [hok hlogin] at hr
      cases hrec : pickUpNumber net fuel number (login net cur1).2.1 with
      | none => rw [hrec] at hr; cases hr
      | some r' =>
        rw [hrec] at hr
        injection hr with hr
        subst hr
        simp only [loginCalls_append, hhead.2]
        omega

/-- Witness of the amended C4: the portal that answers 401, then 403, then lets the
claim through; the first login succeeds, and the recursive call resolves to 628123
after 2 attempts and 1 login. -/
theorem pickUpNumber_expiry_witness :
    ∃ r, pickUpNumber expiredTwice 3 sampleEntry 0 = some r ∧ r.value = some "628123" ∧
      loginCalls r.trace = 1 + 1 ∧ claimAttempts r.trace = 1 + 2 :=
  ((pickUpNumber_expiry expiredTwice sampleEntry 0 2 (some 401)
      "Request failed with status code 401" 1 rfl (Or.inl rfl)).2.1 rfl).2
    { value := some "628123", cur := 9
      trace := [.pickUpNumber sampleEntry,
        .log "Sesi atau cookie kedaluwarsa. Mencoba login lagi..." "warning", .login,
        .log "Mencoba login..." "info", .log "Login berhasil" "success",
        .pickUpNumber sampleEntry] } rfl

/-! ## Lemmas on the claim loop -/

theorem getWaNumbers_events (r : HttpResult) :
    pickUpCalls (getWaNumbers r).2 = [] ∧ saveCalls (getWaNumbers r).2 = [] := by
  unfold getWaNumbers
  split <;> simp [pickUpCalls, saveCalls]

theorem assignNewNumber_events (net : Nat → HttpResult) :
    pickUpCalls (assignNewNumber net).2 = [] ∧ saveCalls (assignNewNumber net).2 = [] := by
  unfold assignNewNumber
  split
  · simp [pickUpCalls, saveCalls]
  · split
    · simp [pickUpCalls, saveCalls]
    · split <;> simp [pickUpCalls, saveCalls]

theorem pickUpCalls_append (a b : List Event) :
    pickUpCalls (a ++ b) = pickUpCalls a ++ pickUpCalls b := by
  simp [pickUpCalls]

theorem saveCalls_append (a b : List Event) :
    saveCalls (a ++ b) = saveCalls a ++ saveCalls b := by
  simp [saveCalls]

theorem pickUpCalls_map (numbers : List ListingEntry) :
    pickUpCalls (numbers.map Event.pickUpNumber) = numbers ∧
      saveCalls (numbers.map Event.pickUpNumber) = [] := by
  induction numbers with
  | nil => exact ⟨rfl, rfl⟩
  | cons a rest ih =>
    constructor
    · simp only [List.map_cons, pickUpCalls, List.filterMap_cons]
      exact congrArg _ ih.1
    · simp only [List.map_cons, saveCalls, List.filterMap_cons]
      exact ih.2

/-- A pass in which the listing is empty and the replenishment request fails. -/
theorem loopBody_refused (w : World) (s : LoopState)
    (hlisting : (getWaNumbers (w.listing s.listings)).1 = [])
    (hassign : (assignNewNumber (w.assign s.assigns)).1 = false) :
    ∃ added, pickUpCalls added = [] ∧ saveCalls added = [] ∧
      loopBody w s =
        (if MAX_EMPTY_ATTEMPTS ≤ s.consecutiveEmptyAttempts + 1 then .done else .next,
          { s with consecutiveEmptyAttempts := s.consecutiveEmptyAttempts + 1
                   listings := s.listings + 1
                   assigns := s.assigns + 1
                   trace := s.trace ++ added }) := by
  have hg := getWaNumbers_events (w.listing s.listings)
  have ha := assignNewNumber_events (w.assign s.assigns)
  by_cases hmax : MAX_EMPTY_ATTEMPTS ≤ s.consecutiveEmptyAttempts + 1
  · refine ⟨[Event.getWaNumbers] ++ (getWaNumbers (w.listing s.listings)).2 ++
      [Event.log "Tidak ada nomor ditemukan. Mencoba menetapkan nomor baru..." "warning",
        Event.assignNewNumber] ++ (assignNewNumber (w.assign s.assigns)).2 ++
      [.log "Gagal mendapatkan nomor setelah 2 percobaan. Menghentikan proses." "error"],
      ?_, ?_, ?_⟩
    · simp only [pickUpCalls_append, hg.1, ha.1]
      rfl
    · simp only [saveCalls_append, hg.2, ha.2]
      rfl
    · simp [loopBody, hlisting, hassign, hmax]
  · refine ⟨[Event.getWaNumbers] ++ (getWaNumbers (w.listing s.listings)).2 ++
      [Event.log "Tidak ada nomor ditemukan. Mencoba menetapkan nomor baru..." "warning",
        Event.assignNewNumber] ++ (assignNewNumber (w.assign s.assigns)).2,
      ?_, ?_, ?_⟩
    · simp only [pickUpCalls_append, hg.1, ha.1]
      rfl
    · simp only [saveCalls_append, hg.2, ha.2]
      rfl
    · simp [loopBody, hlisting, hassign, hmax]

/-- A pass in which the listing is empty, the replenishment request succeeds and the
listing is empty again. -/
theorem loopBody_still_empty (w : World) (s : LoopState)
    (hlisting : (getWaNumbers (w.listing s.listings)).1 = [])
    (hassign : (assignNewNumber (w.assign s.assigns)).1 = true)
    (hagain : (getWaNumbers (w.listing (s.listings + 1))).1 = []) :
    ∃ added, pickUpCalls added = [] ∧ saveCalls added = [] ∧
      loopBody w s =
        (if MAX_EMPTY_ATTEMPTS ≤ s.consecutiveEmptyAttempts + 1 then .done else .next,
          { s with consecutiveEmptyAttempts := s.consecutiveEmptyAttempts + 1
                   listings := s.listings + 1 + 1
                   assigns := s.assigns + 1
                   trace := s.trace ++ added }) := by
  have hg := getWaNumbers_events (w.listing s.listings)
  have hg2 := getWaNumbers_events (w.listing (s.listings + 1))
  have ha := assignNewNumber_events (w.assign s.assigns)
  by_cases hmax : MAX_EMPTY_ATTEMPTS ≤ s.consecutiveEmptyAttempts + 1
  · refine ⟨[Event.getWaNumbers] ++ (getWaNumbers (w.listing s.listings)).2 ++
      [Event.log "Tidak ada nomor ditemukan. Mencoba menetapkan nomor baru..." "warning",
        Event.assignNewNumber] ++ (assignNewNumber (w.assign s.assigns)).2 ++
      [Event.log ("Nomor baru berhasil ditetapkan. " ++
        "Mencoba mendapatkan nomor lagi...") "success", Event.getWaNumbers] ++
      (getWaNumbers (w.listing (s.listings + 1))).2 ++
      [.log "Tidak ada nomor tersedia setelah 2 percobaan. Menghentikan proses." "error"],
      ?_, ?_, ?_⟩
    · simp only [pickUpCalls_append, hg.1, hg2.1, ha.1]
      rfl
    · simp only [saveCalls_append, hg.2, hg2.2, ha.2]
      rfl
    · simp [loopBody, claimAndPersist, hlisting, hassign, hagain, hmax]
  · refine ⟨[Event.getWaNumbers] ++ (getWaNumbers (w.listing s.listings)).2 ++
      [Event.log "Tidak ada nomor ditemukan. Mencoba menetapkan nomor baru..." "warning",
        Event.assignNewNumber] ++ (assignNewNumber (w.assign s.assigns)).2 ++
      [Event.log ("Nomor baru berhasil ditetapkan. " ++
        "Mencoba mendapatkan nomor lagi...") "success", Event.getWaNumbers] ++
      (getWaNumbers (w.listing (s.listings + 1))).2,
      ?_, ?_, ?_⟩
    · simp only [pickUpCalls_append, hg.1, hg2.1, ha.1]
      rfl
    · simp only [saveCalls_append, hg.2, hg2.2, ha.2]
      rfl
    · simp [loopBody, claimAndPersist, hlisting, hassign, hagain, hmax]

/-- The loop body from the claims on, for a listing that is not empty: the pass does not
end with `break`, the counter is 0 after it, one `pickUpNumber` call is recorded per
entry, and the pass ends with an exception exactly when the batch is not empty and
`saveNumbersToDatabase` throws. -/
theorem claimAndPersist_claims (w : World) (s : LoopState) (numbers : List ListingEntry)
    (hne : numbers ≠ []) :
    (claimAndPersist w s numbers).1 ≠ .done ∧
      (claimAndPersist w s numbers).2.consecutiveEmptyAttempts = 0 ∧
      (∃ after, (claimAndPersist w s numbers).2.trace
          = s.trace ++ numbers.map Event.pickUpNumber ++ after ∧ pickUpCalls after = []) ∧
      (∀ e, (claimAndPersist w s numbers).1 = .threw e →
        saveNumbersToDatabase (w.host s.saves) s.table
          (filterBoolean (claimResults w.claim s.claims numbers)) = .error e) := by
  have hlen : ¬ numbers.length = 0 := by
    intro h
    exact hne (List.length_eq_zero.mp h)
  unfold claimAndPersist
  simp only [hlen, if_false]
  split
  · simp only [Nat.add_sub_cancel]
    split
    · next e hsave =>
      refine ⟨by simp, rfl, ⟨_, rfl, rfl⟩, ?_⟩
      intro e' _
      cases e
      cases e'
      exact hsave
    · next saveResult table hsave =>
      refine ⟨by simp, rfl, ⟨_, rfl, rfl⟩, ?_⟩
      intro e' he'
      cases he'
  · refine ⟨by simp, rfl, ⟨[], by simp, rfl⟩, ?_⟩
    intro e' he'
    cases he'

/-- A pass whose first listing is not empty goes to the claims. -/
theorem loopBody_listed (w : World) (s : LoopState)
    (hlisting : (getWaNumbers (w.listing s.listings)).1 ≠ []) :
    loopBody w s = claimAndPersist w
      { s with listings := s.listings + 1
               trace := s.trace ++ [Event.getWaNumbers]
                 ++ (getWaNumbers (w.listing s.listings)).2 }
      (getWaNumbers (w.listing s.listings)).1 := by
  have hlen : ¬ (getWaNumbers (w.listing s.listings)).1.length = 0 := by
    intro h
    exact hlisting (List.length_eq_zero.mp h)
  simp only [loopBody, hlen, if_false]

/-- A pass whose first listing is empty and whose replenishment request succeeds goes on
with the listing fetched after it. -/
theorem loopBody_replenished (w : World) (s : LoopState)
    (hlisting : (getWaNumbers (w.listing s.listings)).1 = [])
    (hassign : (assignNewNumber (w.assign s.assigns)).1 = true) :
    loopBody w s = claimAndPersist w
      { s with listings := s.listings + 1 + 1
               assigns := s.assigns + 1
               trace := s.trace ++ [Event.getWaNumbers]
                 ++ (getWaNumbers (w.listing s.listings)).2
                 ++ [Event.log "Tidak ada nomor ditemukan. Mencoba menetapkan nomor baru..."
                      "warning", Event.assignNewNumber]
                 ++ (assignNewNumber (w.assign s.assigns)).2
                 ++ [Event.log ("Nomor baru berhasil ditetapkan. " ++
                      "Mencoba mendapatkan nomor lagi...") "success", Event.getWaNumbers]
                 ++ (getWaNumbers (w.listing (s.listings + 1))).2 }
      (getWaNumbers (w.listing (s.listings + 1))).1 := by
  simp only [loopBody, hlisting, hassign, List.length_nil, if_true]

/-- A pass that ends with an empty listing: nothing is claimed or saved, the counter
grows by one, and the pass ends with `break` exactly when the counter reaches
`MAX_EMPTY_ATTEMPTS`. -/
theorem loopBody_empty (w : World) (s : LoopState) (hempty : emptyPass w s = true) :
    ∃ added l, pickUpCalls added = [] ∧ saveCalls added = [] ∧ s.listings < l ∧
      loopBody w s =
        (if MAX_EMPTY_ATTEMPTS ≤ s.consecutiveEmptyAttempts + 1 then .done else .next,
          { s with consecutiveEmptyAttempts := s.consecutiveEmptyAttempts + 1
                   listings := l
                   assigns := s.assigns + 1
                   trace := s.trace ++ added }) := by
  unfold emptyPass at hempty
  simp only [Bool.and_eq_true, Bool.or_eq_true, Bool.not_eq_true', List.isEmpty_iff] at hempty
  obtain ⟨hlisting, hrest⟩ := hempty
  cases hassign : (assignNewNumber (w.assign s.assigns)).1 with
  | false =>
    obtain ⟨added, h1, h2, h3⟩ := loopBody_refused w s hlisting hassign
    exact ⟨added, s.listings + 1, h1, h2, by omega, h3⟩
  | true =>
    have hagain : (getWaNumbers (w.listing (s.listings + 1))).1 = [] := by
      rcases hrest with h | h
      · rw [hassign] at h; cases h
      · exact h
    obtain ⟨added, h1, h2, h3⟩ := loopBody_still_empty w s hlisting hassign hagain
    exact ⟨added, s.listings + 1 + 1, h1, h2, by omega, h3⟩

/-- A pass that does not end with an empty listing: it does not end with `break`, and
the counter is 0 after it. -/
theorem loopBody_nonempty (w : World) (s : LoopState) (hempty : emptyPass w s = false) :
    (loopBody w s).1 ≠ .done ∧ (loopBody w s).2.consecutiveEmptyAttempts = 0 := by
  unfold emptyPass at hempty
  by_cases hlisting : (getWaNumbers (w.listing s.listings)).1 = []
  · simp only [hlisting, List.isEmpty_nil, Bool.true_and, Bool.or_eq_false_iff,
      Bool.not_eq_false'] at hempty
    obtain ⟨hassign, hagain⟩ := hempty
    have hne : (getWaNumbers (w.listing (s.listings + 1))).1 ≠ [] := by
      intro h
      rw [h] at hagain
      cases hagain
    rw [loopBody_replenished w s hlisting hassign]
    exact ⟨(claimAndPersist_claims w _ _ hne).1, (claimAndPersist_claims w _ _ hne).2.1⟩
  · rw [loopBody_listed w s hlisting]
    exact ⟨(claimAndPersist_claims w _ _ hlisting).1,
      (claimAndPersist_claims w _ _ hlisting).2.1⟩

/-- The loop entered in a state reached after `n` passes behaves as the loop entered
at the start with `n` more passes allowed. -/
theorem claimLoop_stateAfter (w : World) (n k : Nat) (s0 s : LoopState)
    (h : stateAfter w n s0 = some s) : claimLoop w (n + k) s0 = claimLoop w k s := by
  induction n generalizing s0 with
  | zero =>
    simp only [stateAfter, Option.some.injEq] at h
    subst h
    simp
  | succ n ih =>
    rw [stateAfter] at h
    rw [show n + 1 + k = (n + k) + 1 by omega, claimLoop]
    split at h
    · next s1 hbody =>
      rw [hbody]
      exact ih s1 h
    · cases h

/-- C8. In a pass of the loop in which `getWaNumbers()` returns an empty list,
`assignNewNumber()` returns true and the `getWaNumbers()` that follows returns a list
`numbers` that is not empty (whatever the counter was), the pass does not end with
`break`, `consecutiveEmptyAttempts` is 0 after it, and the trace of the pass records
`pickUpNumber` exactly once for each entry of `numbers`, in order.  The pass goes on to
the next one unless `saveNumbersToDatabase` throws on the batch of claimed values. -/
theorem loopBody_replenished_claims (w : World) (s : LoopState) (numbers : List ListingEntry)
    (hlisting : (getWaNumbers (w.listing s.listings)).1 = [])
    (hassign : (assignNewNumber (w.assign s.assigns)).1 = true)
    (hagain : (getWaNumbers (w.listing (s.listings + 1))).1 = numbers)
    (hne : numbers ≠ []) :
    (loopBody w s).1 ≠ .done ∧
      (loopBody w s).2.consecutiveEmptyAttempts = 0 ∧
      (∃ added, (loopBody w s).2.trace = s.trace ++ added ∧ pickUpCalls added = numbers) ∧
      (∀ e, (loopBody w s).1 = .threw e →
        saveNumbersToDatabase (w.host s.saves) s.table
          (filterBoolean (claimResults w.claim s.claims numbers)) = .error e) ∧
      ((∀ e, saveNumbersToDatabase (w.host s.saves) s.table
          (filterBoolean (claimResults w.claim s.claims numbers)) ≠ .error e) →
        (loopBody w s).1 = .next) := by
  have hg := getWaNumbers_events (w.listing s.listings)
  have hg2 := getWaNumbers_events (w.listing (s.listings + 1))
  have ha := assignNewNumber_events (w.assign s.assigns)
  rw [loopBody_replenished w s hlisting hassign, hagain]
  obtain ⟨hdone, hcounter, ⟨after, htrace, hafter⟩, hthrew⟩ := claimAndPersist_claims w
    { s with listings := s.listings + 1 + 1
             assigns := s.assigns + 1
             trace := s.trace ++ [Event.getWaNumbers]
               ++ (getWaNumbers (w.listing s.listings)).2
               ++ [Event.log "Tidak ada nomor ditemukan. Mencoba menetapkan nomor baru..."
                    "warning", Event.assignNewNumber]
               ++ (assignNewNumber (w.assign s.assigns)).2
               ++ [Event.log ("Nomor baru berhasil ditetapkan. " ++
                    "Mencoba mendapatkan nomor lagi...") "success", Event.getWaNumbers]
               ++ (getWaNumbers (w.listing (s.listings + 1))).2 } numbers hne
  refine ⟨hdone, hcounter, ?_, hthrew, ?_⟩
  · refine ⟨[Event.getWaNumbers] ++ (getWaNumbers (w.listing s.listings)).2
        ++ [Event.log "Tidak ada nomor ditemukan. Mencoba menetapkan nomor baru..."
              "warning", Event.assignNewNumber]
        ++ (assignNewNumber (w.assign s.assigns)).2
        ++ [Event.log ("Nomor baru berhasil ditetapkan. " ++
              "Mencoba mendapatkan nomor lagi...") "success", Event.getWaNumbers]
        ++ (getWaNumbers (w.listing (s.listings + 1))).2
        ++ numbers.map Event.pickUpNumber ++ after, ?_, ?_⟩
    · rw [htrace]
      simp only [List.append_assoc]
    · simp only [pickUpCalls_append, hg.1, hg2.1, ha.1, hafter, (pickUpCalls_map numbers).1]
      simp [pickUpCalls]
  · intro hsave
    cases hctl : (claimAndPersist w _ numbers).1 with
    | next => rfl
    | done => exact absurd hctl hdone
    | threw e => exact absurd (hthrew e hctl) (hsave e)

/-- Witness of C8: the first listing has 0 entries, the replenishment request succeeds
and the second listing has 2 entries: the pass records 2 `pickUpNumber` calls. -/
theorem loopBody_replenished_claims_witness :
    (loopBody replenishedWorld (initialState emptyTable [])).1 ≠ .done ∧
      (loopBody replenishedWorld (initialState emptyTable [])).2.consecutiveEmptyAttempts = 0 ∧
      (∃ added, (loopBody replenishedWorld (initialState emptyTable [])).2.trace
          = [] ++ added ∧ pickUpCalls added = twoRows.rows) ∧
      twoRows.rows.length = 2 :=
  have h := loopBody_replenished_claims replenishedWorld (initialState emptyTable [])
    twoRows.rows rfl rfl rfl (by decide)
  ⟨h.1, h.2.1, h.2.2.1, rfl⟩

/-- One pass of the loop on a source that is empty and cannot be replenished. -/
theorem loopBody_exhausted (w : World) (s : LoopState)
    (hlisting : ∀ k, s.listings ≤ k → (getWaNumbers (w.listing k)).1 = [])
    (hassign : ∀ k, s.assigns ≤ k → (assignNewNumber (w.assign k)).1 = false) :
    ∃ s1, loopBody w s
        = (if MAX_EMPTY_ATTEMPTS ≤ s.consecutiveEmptyAttempts + 1 then .done else .next, s1) ∧
      s1.consecutiveEmptyAttempts = s.consecutiveEmptyAttempts + 1 ∧
      s1.totalProcessed = s.totalProcessed ∧ s1.totalDuplicate = s.totalDuplicate ∧
      s1.table = s.table ∧
      (∃ added, s1.trace = s.trace ++ added ∧ pickUpCalls added = [] ∧ saveCalls added = []) ∧
      (∀ k, s1.listings ≤ k → (getWaNumbers (w.listing k)).1 = []) ∧
      (∀ k, s1.assigns ≤ k → (assignNewNumber (w.assign k)).1 = false) := by
  obtain ⟨added, h1, h2, h3⟩ := loopBody_refused w s (hlisting _ (Nat.le_refl _))
    (hassign _ (Nat.le_refl _))
  refine ⟨_, h3, rfl, rfl, rfl, rfl, ⟨added, rfl, h1, h2⟩, ?_, ?_⟩
  · intro k hk
    exact hlisting k (by simp only at hk; omega)
  · intro k hk
    exact hassign k (by simp only at hk; omega)

/-- C3. Let the loop be in a state from which every `getWaNumbers()` returns an empty
list and every `assignNewNumber()` returns false.  Then the loop leaves through `break`
after `n` further passes, with `1 ≤ n ≤ MAX_EMPTY_ATTEMPTS = 2`: it is still running
with less fuel than `n` and has left with any fuel from `n` on.  These passes record no
`pickUpNumber` and no `saveNumbersToDatabase` call and leave `totalProcessed`,
`totalDuplicate` and the table as they were.  If the state is the one reached after
`k` passes of a run of `processPickCommand` whose login succeeded, the run hands
`createSummaryMessage` these same totals (0 and 0 when `k = 0`). -/
theorem claimLoop_exhausted (w : World) (s : LoopState)
    (hlisting : ∀ k, s.listings ≤ k → (getWaNumbers (w.listing k)).1 = [])
    (hassign : ∀ k, s.assigns ≤ k → (assignNewNumber (w.assign k)).1 = false) :
    ∃ n s', 1 ≤ n ∧ n ≤ MAX_EMPTY_ATTEMPTS ∧
      (∀ fuel, n ≤ fuel → claimLoop w fuel s = some (none, s')) ∧
      (∀ fuel, fuel < n → claimLoop w fuel s = none) ∧
      s'.totalProcessed = s.totalProcessed ∧ s'.totalDuplicate = s.totalDuplicate ∧
      s'.table = s.table ∧
      (∃ added, s'.trace = s.trace ++ added ∧ pickUpCalls added = [] ∧ saveCalls added = []) ∧
      (∀ table k, (login w.loginNet 0).1 = true →
        stateAfter w k (initialState table (.login :: (login w.loginNet 0).2.2)) = some s →
        ∀ fuel, k + n ≤ fuel →
          ∃ r, processPickCommand w fuel table = some r ∧
            Event.sendMessageWithRetry (.summary s.totalProcessed s.totalDuplicate) ∈ r.trace ∧
            r.table = s.table) := by
  have hrun : ∃ n s', 1 ≤ n ∧ n ≤ MAX_EMPTY_ATTEMPTS ∧
      (∀ fuel, n ≤ fuel → claimLoop w fuel s = some (none, s')) ∧
      (∀ fuel, fuel < n → claimLoop w fuel s = none) ∧
      s'.totalProcessed = s.totalProcessed ∧ s'.totalDuplicate = s.totalDuplicate ∧
      s'.table = s.table ∧
      (∃ added, s'.trace = s.trace ++ added ∧ pickUpCalls added = [] ∧ saveCalls added = []) := by
    obtain ⟨s1, hbody1, hc1, hp1, hd1, ht1, ⟨added1, htr1, hpick1, hsave1⟩, hl1, ha1⟩ :=
      loopBody_exhausted w s hlisting hassign
    by_cases hmax : MAX_EMPTY_ATTEMPTS ≤ s.consecutiveEmptyAttempts + 1
    · rw [if_pos hmax] at hbody1
      refine ⟨1, s1, Nat.le_refl _, by decide, ?_, ?_, hp1, hd1, ht1,
        ⟨added1, htr1, hpick1, hsave1⟩⟩
      · intro fuel hfuel
        obtain ⟨m, rfl⟩ : ∃ m, fuel = m + 1 := ⟨fuel - 1, by omega⟩
        simp only [claimLoop, hbody1]
      · intro fuel hfuel
        have : fuel = 0 := by omega
        subst this
        rfl
    · rw [if_neg hmax] at hbody1
      obtain ⟨s2, hbody2, -, hp2, hd2, ht2, ⟨added2, htr2, hpick2, hsave2⟩, -, -⟩ :=
        loopBody_exhausted w s1 hl1 ha1
      have hmax2 : MAX_EMPTY_ATTEMPTS ≤ s1.consecutiveEmptyAttempts + 1 := by
        rw [hc1]
        unfold MAX_EMPTY_ATTEMPTS
        omega
      rw [if_pos hmax2] at hbody2
      refine ⟨2, s2, by decide, Nat.le_refl _, ?_, ?_, hp2.trans hp1, hd2.trans hd1,
        ht2.trans ht1, ⟨added1 ++ added2, ?_, ?_, ?_⟩⟩
      · intro fuel hfuel
        obtain ⟨m, rfl⟩ : ∃ m, fuel = m + 1 + 1 := ⟨fuel - 2, by omega⟩
        simp only [claimLoop, hbody1, hbody2]
      · intro fuel hfuel
        have : fuel = 0 ∨ fuel = 1 := by omega
        rcases this with rfl | rfl
        · rfl
        · simp only [claimLoop, hbody1]
      · rw [htr2, htr1, List.append_assoc]
      · rw [pickUpCalls_append, hpick1, hpick2]
        rfl
      · rw [saveCalls_append, hsave1, hsave2]
        rfl
  obtain ⟨n, s', hn1, hn2, hleft, hrunning, hp, hd, ht, htrace⟩ := hrun
  refine ⟨n, s', hn1, hn2, hleft, hrunning, hp, hd, ht, htrace, ?_⟩
  intro table k hlogin hstate fuel hfuel
  obtain ⟨m, rfl⟩ : ∃ m, fuel = k + m := ⟨fuel - k, by omega⟩
  have hloop := claimLoop_stateAfter w k m _ s hstate
  rw [hleft m (by omega)] at hloop
  simp only [processPickCommand, hlogin, Bool.not_true, Bool.false_eq_true, if_false, hloop]
  rw [hp, hd, ht]
  cases (sendMessageWithRetry (w.send 0) defaultRetries defaultDelay).1 with
  | ok u => exact ⟨_, rfl, by simp, rfl⟩
  | error e => exact ⟨_, rfl, by simp [catchBlock], rfl⟩

/-- Witness of C3: in a world whose listings are all empty and whose replenishment
requests are all refused, the run of `processPickCommand` ends within two passes, hands
`createSummaryMessage` the totals 0 and 0 and records no claim and no save. -/
theorem claimLoop_exhausted_witness :
    (∃ r, processPickCommand exhaustedWorld 2 emptyTable = some r ∧
      Event.sendMessageWithRetry (.summary 0 0) ∈ r.trace) ∧
    (processPickCommand exhaustedWorld 2 emptyTable).map
      (fun r => (pickUpCalls r.trace, saveCalls r.trace)) = some ([], []) := by
  obtain ⟨n, s', -, hn, -, -, -, -, -, -, hrun⟩ :=
    claimLoop_exhausted exhaustedWorld
      (initialState emptyTable (.login :: (login exhaustedWorld.loginNet 0).2.2))
      (fun _ _ => rfl) (fun _ _ => rfl)
  obtain ⟨r, h1, h2, -⟩ :=
    hrun emptyTable 0 rfl rfl 2 (by unfold MAX_EMPTY_ATTEMPTS at hn; omega)
  exact ⟨⟨r, h1, h2⟩, by decide⟩

/-- Counterexample to C5 as stated: every listing is empty and every replenishment
request succeeds; the loop leaves through `break` after two passes, with both
`assignNewNumber()` calls having returned true. -/
theorem claimLoop_done_though_replenished :
    (∀ k, (assignNewNumber (replenishedEmptyWorld.assign k)).1 = true) ∧
      ∃ s', claimLoop replenishedEmptyWorld 2 (initialState emptyTable []) = some (none, s') ∧
        s'.assigns = 2 ∧ s'.consecutiveEmptyAttempts = 2 ∧
        pickUpCalls s'.trace = [] :=
  ⟨fun _ => rfl, _, rfl, rfl, rfl, by decide⟩

/-- The loop leaves through `break` only from a pass that ends with an empty listing
and finds the counter at 1, after a pass that ended with an empty listing too. -/
theorem claimLoop_done_cases (w : World) (fuel : Nat) (s s' : LoopState)
    (hcounter : s.consecutiveEmptyAttempts ≤ 1)
    (hdone : claimLoop w fuel s = some (none, s')) :
    (∃ n s1 s2, n + 2 ≤ fuel ∧ stateAfter w n s = some s1 ∧ emptyPass w s1 = true ∧
        loopBody w s1 = (.next, s2) ∧ emptyPass w s2 = true ∧ loopBody w s2 = (.done, s')) ∨
      (s.consecutiveEmptyAttempts = 1 ∧ emptyPass w s = true ∧ loopBody w s = (.done, s')) := by
  induction fuel generalizing s with
  | zero => cases hdone
  | succ fuel ih =>
    rw [claimLoop] at hdone
    cases hempty : emptyPass w s with
    | false =>
      obtain ⟨hnot, hzero⟩ := loopBody_nonempty w s hempty
      split at hdone
      · next s1 hbody =>
        rw [hbody] at hzero
        have := ih s1 (by simp only at hzero; omega) hdone
        rcases this with ⟨n, t1, t2, hn, hst, h1, h2, h3, h4⟩ | ⟨hone, -, -⟩
        · left
          refine ⟨n + 1, t1, t2, by omega, ?_, h1, h2, h3, h4⟩
          rw [stateAfter, hbody]
          exact hst
        · simp only at hzero
          omega
      · next s1 hbody =>
        rw [hbody] at hnot
        exact absurd rfl hnot
      · cases hdone
    | true =>
      obtain ⟨added, l, -, -, -, hbody⟩ := loopBody_empty w s hempty
      by_cases hmax : MAX_EMPTY_ATTEMPTS ≤ s.consecutiveEmptyAttempts + 1
      · rw [if_pos hmax] at hbody
        rw [hbody] at hdone
        simp only [Option.some.injEq, Prod.mk.injEq, true_and] at hdone
        right
        refine ⟨by unfold MAX_EMPTY_ATTEMPTS at hmax; omega, rfl, ?_⟩
        rw [hbody, hdone]
      · rw [if_neg hmax] at hbody
        rw [hbody] at hdone
        simp only at hdone
        have := ih _ (by unfold MAX_EMPTY_ATTEMPTS at hmax; simp only; omega) hdone
        rcases this with ⟨n, t1, t2, hn, hst, h1, h2, h3, h4⟩ | ⟨-, h3, h4⟩
        · left
          refine ⟨n + 1, t1, t2, by omega, ?_, h1, h2, h3, h4⟩
          rw [stateAfter, hbody]
          exact hst
        · left
          have hfuel : 1 ≤ fuel := by
            cases fuel with
            | zero => cases hdone
            | succ m => omega
          exact ⟨0, s, _, by omega, rfl, hempty, hbody, h3, h4⟩

/-- C5, amended. `consecutiveEmptyAttempts` is incremented exactly in the passes that end
with an empty listing: the listing is empty and either `assignNewNumber()` fails, or it
succeeds and the listing fetched after it is empty again; such a pass ends with `break`
exactly when the counter reaches `MAX_EMPTY_ATTEMPTS`.  Every other pass sets the
counter to 0 and does not end with `break`.  So a loop entered with the counter at 0
leaves through `break` only at the second of two consecutive passes that ended with an
empty listing, and a run in which no pass ends with an empty listing never leaves through
`break`. -/
theorem claimLoop_done_only_after_empty_passes (w : World) (s : LoopState) :
    (emptyPass w s = true →
      (loopBody w s).2.consecutiveEmptyAttempts = s.consecutiveEmptyAttempts + 1 ∧
        ((loopBody w s).1 = .done ↔ MAX_EMPTY_ATTEMPTS ≤ s.consecutiveEmptyAttempts + 1) ∧
        ((loopBody w s).1 = .next ↔ s.consecutiveEmptyAttempts + 1 < MAX_EMPTY_ATTEMPTS)) ∧
    (emptyPass w s = false →
      (loopBody w s).2.consecutiveEmptyAttempts = 0 ∧ (loopBody w s).1 ≠ .done) ∧
    (s.consecutiveEmptyAttempts = 0 → ∀ fuel s', claimLoop w fuel s = some (none, s') →
      ∃ n s1 s2, n + 2 ≤ fuel ∧ stateAfter w n s = some s1 ∧ emptyPass w s1 = true ∧
        loopBody w s1 = (.next, s2) ∧ emptyPass w s2 = true ∧ loopBody w s2 = (.done, s')) ∧
    ((∀ n s1, stateAfter w n s = some s1 → emptyPass w s1 = false) →
      ∀ fuel s', claimLoop w fuel s ≠ some (none, s')) := by
  refine ⟨?_, ?_, ?_, ?_⟩
  · intro hempty
    obtain ⟨added, l, -, -, -, hbody⟩ := loopBody_empty w s hempty
    rw [hbody]
    refine ⟨rfl, ?_, ?_⟩
    · by_cases hmax : MAX_EMPTY_ATTEMPTS ≤ s.consecutiveEmptyAttempts + 1
      · simp [hmax]
      · simp [hmax]
    · by_cases hmax : MAX_EMPTY_ATTEMPTS ≤ s.consecutiveEmptyAttempts + 1
      · simp only [if_pos hmax]
        constructor
        · intro h; cases h
        · intro h; omega
      · simp only [if_neg hmax, true_iff]
        omega
  · intro hempty
    obtain ⟨h1, h2⟩ := loopBody_nonempty w s hempty
    exact ⟨h2, h1⟩
  · intro hzero fuel s' hdone
    rcases claimLoop_done_cases w fuel s s' (by omega) hdone with h | ⟨hone, -, -⟩
    · exact h
    · omega
  · intro hnever fuel
    induction fuel generalizing s with
    | zero => intro s' h; cases h
    | succ fuel ih =>
      intro s' h
      rw [claimLoop] at h
      obtain ⟨hnot, -⟩ := loopBody_nonempty w s (hnever 0 s rfl)
      split at h
      · next s1 hbody =>
        refine ih s1 ?_ s' h
        intro n t hst
        apply hnever (n + 1) t
        rw [stateAfter, hbody]
        exact hst
      · next s1 hbody =>
        rw [hbody] at hnot
        exact absurd rfl hnot
      · cases h

/-- Witness of the amended C5: with every listing empty and every replenishment request
refused, the loop leaves at the second of two passes that ended with an empty listing;
a pass with a replenished, non-empty listing resets the counter; and with every listing
non-empty the loop never leaves through `break`. -/
theorem claimLoop_done_only_after_empty_passes_witness :
    (∃ n s1 s2 s', n + 2 ≤ 2 ∧
      stateAfter exhaustedWorld n (initialState emptyTable []) = some s1 ∧
      emptyPass exhaustedWorld s1 = true ∧ loopBody exhaustedWorld s1 = (.next, s2) ∧
      emptyPass exhaustedWorld s2 = true ∧ loopBody exhaustedWorld s2 = (.done, s')) ∧
    ((loopBody exhaustedWorld (initialState emptyTable [])).2.consecutiveEmptyAttempts = 0 + 1) ∧
    ((loopBody replenishedWorld (initialState emptyTable [])).2.consecutiveEmptyAttempts = 0 ∧
      (loopBody replenishedWorld (initialState emptyTable [])).1 ≠ .done) ∧
    (∀ fuel s', claimLoop busyWorld fuel (initialState emptyTable []) ≠ some (none, s')) := by
  have h1 := (claimLoop_done_only_after_empty_passes exhaustedWorld
    (initialState emptyTable [])).2.2.1 rfl 2
    (loopBody exhaustedWorld (loopBody exhaustedWorld (initialState emptyTable [])).2).2 rfl
  obtain ⟨n, s1, s2, h1⟩ := h1
  exact ⟨⟨n, s1, s2, _, h1⟩,
    ((claimLoop_done_only_after_empty_passes exhaustedWorld
      (initialState emptyTable [])).1 rfl).1,
    (claimLoop_done_only_after_empty_passes replenishedWorld
      (initialState emptyTable [])).2.1 rfl,
    (claimLoop_done_only_after_empty_passes busyWorld
      (initialState emptyTable [])).2.2.2 (fun _ _ _ => rfl)⟩

/-- The loop of `sendMessageWithRetry` calls `bot.sendMessage` at most once per pass. -/
theorem sendLoop_attempts (send : Nat → Option TgError) (retries delay remaining i : Nat) :
    sendAttempts (sendLoop send retries delay remaining i).2 ≤ remaining := by
  induction remaining generalizing i with
  | zero => simp [sendLoop, sendAttempts]
  | succ remaining ih =>
    have hrec := ih (i + 1)
    have hcons : ∀ rest : List Event,
        sendAttempts (Event.sendMessage i :: rest) = 1 + sendAttempts rest := by
      intro rest
      simp [sendAttempts, List.filter_cons]
      omega
    have hsleep : ∀ (ms : Nat) (rest : List Event),
        sendAttempts (Event.sleep ms :: rest) = sendAttempts rest := by
      intro ms rest
      simp [sendAttempts, List.filter_cons]
    have hlog : ∀ (m t : String) (rest : List Event),
        sendAttempts (Event.log m t :: rest) = sendAttempts rest := by
      intro m t rest
      simp [sendAttempts, List.filter_cons]
    have hnil : sendAttempts [] = 0 := rfl
    rw [sendLoop]
    split
    · simp only [hcons, hnil]; omega
    · simp only
      split
      · split
        · simp only [hcons, hnil]; omega
        · split
          · simp only [List.cons_append, List.nil_append, hcons, hlog, hsleep]; omega
          · split
            · simp only [hcons, hnil]; omega
            · simp only [List.cons_append, List.nil_append, hcons, hsleep]; omega
      · split
        · simp only [hcons, hnil]; omega
        · simp only [List.cons_append, List.nil_append, hcons, hsleep]; omega

/-- One pass of the loop of `sendMessageWithRetry` whose send fails with an error of the
bot: the error is thrown in the last pass, and otherwise the loop sleeps `delay` and
goes on. -/
theorem sendLoop_failed (send : Nat → Option TgError) (retries delay remaining i : Nat)
    (error : TgError) (hsend : send i = some error) (hshape : error.fromLibrary = true) :
    sendLoop send retries delay (remaining + 1) i =
      if i + 1 = retries then
        (.error (.error error), [.sendMessage i])
      else
        ((sendLoop send retries delay remaining (i + 1)).1,
          [.sendMessage i, .sleep delay] ++ (sendLoop send retries delay remaining (i + 1)).2) := by
  rw [sendLoop]
  simp only [hsend]
  unfold TgError.fromLibrary at hshape
  cases hresp : error.response with
  | none =>
    rw [hresp] at hshape
    have hcode : ¬ error.code = "ETELEGRAM" := by simpa using hshape
    simp only [hcode, if_false]
  | some response =>
    rw [hresp] at hshape
    have hpar : response.parameters = none := by simpa using hshape
    have hretry : response.retryAfter = none := by simp [TgResponse.retryAfter, hpar]
    by_cases hcode : error.code = "ETELEGRAM"
    · simp only [hcode, if_true, hretry]
    · simp only [hcode, if_false]

/-- When every send from pass `i` on fails with an error of the bot, the loop makes all
the passes that are left and throws the error of the last one. -/
theorem sendLoop_all_failed (send : Nat → Option TgError) (retries delay remaining i : Nat)
    (hleft : i + (remaining + 1) = retries)
    (hshape : ∀ j e, send j = some e → e.fromLibrary = true)
    (hfail : ∀ j, i ≤ j → j < retries → send j ≠ none) :
    ∃ e, send (retries - 1) = some e ∧
      (sendLoop send retries delay (remaining + 1) i).1 = .error (.error e) ∧
      sendAttempts (sendLoop send retries delay (remaining + 1) i).2 = remaining + 1 := by
  induction remaining generalizing i with
  | zero =>
    cases hsend : send i with
    | none => exact absurd hsend (hfail i (Nat.le_refl _) (by omega))
    | some error =>
      rw [sendLoop_failed send retries delay 0 i error hsend (hshape i error hsend)]
      have hlast : i + 1 = retries := by omega
      rw [if_pos hlast]
      refine ⟨error, ?_, rfl, by simp [sendAttempts]⟩
      rw [← hlast, Nat.add_sub_cancel]
      exact hsend
  | succ remaining ih =>
    cases hsend : send i with
    | none => exact absurd hsend (hfail i (Nat.le_refl _) (by omega))
    | some error =>
      rw [sendLoop_failed send retries delay (remaining + 1) i error hsend
        (hshape i error hsend)]
      have hnot : ¬ i + 1 = retries := by omega
      rw [if_neg hnot]
      obtain ⟨e, he, hthrown, hcount⟩ := ih (i + 1) (by omega)
        (fun j hj hlt => hfail j (by omega) hlt)
      refine ⟨e, he, hthrown, ?_⟩
      have : sendAttempts ([Event.sendMessage i, Event.sleep delay]
          ++ (sendLoop send retries delay (remaining + 1) (i + 1)).2)
          = 1 + sendAttempts (sendLoop send retries delay (remaining + 1) (i + 1)).2 := by
        simp [sendAttempts, List.filter_cons]
        omega
      rw [this, hcount]
      omega

/-- C7. Let every error that `bot.sendMessage` rejects with be one the bot of
`node-telegram-bot-api` builds, with or without a rate-limit hint in its body, and let
`retries > 0` (3 by default).  Then `sendMessageWithRetry` calls `bot.sendMessage` at
most `retries` times; if all `retries` attempts fail it has made exactly `retries`
attempts and throws the error of the last one; and it returns normally only if one of
the attempts succeeded. -/
theorem sendMessageWithRetry_budget (send : Nat → Option TgError) (retries delay : Nat)
    (hretries : 0 < retries)
    (hshape : ∀ i e, send i = some e → e.fromLibrary = true) :
    sendAttempts (sendMessageWithRetry send retries delay).2 ≤ retries ∧
    ((∀ i, i < retries → send i ≠ none) →
      ∃ e, send (retries - 1) = some e ∧
        (sendMessageWithRetry send retries delay).1 = .error (.error e) ∧
        sendAttempts (sendMessageWithRetry send retries delay).2 = retries) ∧
    ((sendMessageWithRetry send retries delay).1 = .ok () →
      ∃ i, i < retries ∧ send i = none) := by
  obtain ⟨remaining, rfl⟩ : ∃ remaining, retries = remaining + 1 := ⟨retries - 1, by omega⟩
  have hall : (∀ i, i < remaining + 1 → send i ≠ none) →
      ∃ e, send (remaining + 1 - 1) = some e ∧
        (sendMessageWithRetry send (remaining + 1) delay).1 = .error (.error e) ∧
        sendAttempts (sendMessageWithRetry send (remaining + 1) delay).2 = remaining + 1 := by
    intro hfail
    exact sendLoop_all_failed send (remaining + 1) delay remaining 0 (by omega) hshape
      (fun j _ hlt => hfail j hlt)
  refine ⟨sendLoop_attempts send (remaining + 1) delay (remaining + 1) 0, hall, ?_⟩
  intro hok
  by_contra hnone
  have hfail : ∀ i, i < remaining + 1 → send i ≠ none := by
    intro i hi hsend
    exact hnone ⟨i, hi, hsend⟩
  obtain ⟨e, -, hthrown, -⟩ := hall hfail
  rw [hthrown] at hok
  cases hok

/-- Witness of C7: Telegram answers each of the 3 attempts with a rate-limit error; the
error is thrown after the third attempt. -/
theorem sendMessageWithRetry_budget_witness :
    sendAttempts (sendMessageWithRetry alwaysRateLimited defaultRetries defaultDelay).2 ≤ 3 ∧
    (sendMessageWithRetry alwaysRateLimited defaultRetries defaultDelay).1
      = .error (.error rateLimited) ∧
    sendAttempts (sendMessageWithRetry alwaysRateLimited defaultRetries defaultDelay).2 = 3 := by
  have h := sendMessageWithRetry_budget alwaysRateLimited defaultRetries defaultDelay
    (by decide) (fun i e he => by
      have : e = rateLimited := by
        simp only [alwaysRateLimited, Option.some.injEq] at he
        exact he.symm
      rw [this]
      decide)
  obtain ⟨e, he, hthrown, hcount⟩ := h.2.1 (fun i _ hsend => by cases hsend)
  have hre : e = rateLimited := by
    simp only [alwaysRateLimited, Option.some.injEq] at he
    exact he.symm
  rw [hre] at hthrown
  exact ⟨h.1, hthrown, hcount⟩

end Pickbray
